import Mathlib

/-!
# YelpCamp API (Go): authentication gate, ownership-gated mutations, listing

A shallow embedding of

* `internal/middleware/auth.go` (`RequireAuth`, `GetUserID`),
* `internal/handlers/auth.go` (`Login`, `generateToken`, `setTokenCookie`),
* `internal/handlers/campground.go` (`List`, `GetByID`, `Create`, `Update`, `Delete`),
* `internal/handlers/comment.go` (`Update`, `Delete`),
* `internal/handlers/helpers.go`, `internal/models/models.go`,

followed by theorems about them.

Conventions.

* A Go `string` is a Lean `String`; a Go `int` is an `Int` kept inside the 64-bit
  range by `wrapInt` wherever the source does arithmetic on it.
* A nil-able pointer (`*string`) is an `Option`.
* `time.Time` is a number of nanoseconds since the Unix epoch.
* The connection pool is a store state together with the set of statements the
  store answers with an error; a handler returns its response, the store it
  leaves behind and the statements it sent, in order.
* Packages outside the repository (`strconv`, `strings`, `net/http`, `jwt`,
  `pgx`) are modelled by what their documentation says they return.
-/

namespace YelpCamp

/-! ## Go integers -/

/-- Largest value of a Go `int` on a 64-bit platform. -/
def maxInt : Int := 9223372036854775807

/-- Smallest value of a Go `int` on a 64-bit platform. -/
def minInt : Int := -9223372036854775808

/-- Two-complement wrap-around of a mathematical integer into a Go `int`. -/
def wrapInt (x : Int) : Int :=
  (x + 9223372036854775808) % 18446744073709551616 - 9223372036854775808

/-- Go `a + b` on `int`. -/
def intAdd (a b : Int) : Int := wrapInt (a + b)

/-- Go `a - b` on `int`. -/
def intSub (a b : Int) : Int := wrapInt (a - b)

/-- Go `a * b` on `int`. -/
def intMul (a b : Int) : Int := wrapInt (a * b)

/-- Go `a / b` on `int`: the quotient truncated toward zero. -/
def intDiv (a b : Int) : Int := wrapInt (Int.tdiv a b)

/-! ## `strings` and `strconv` -/

/-- Go `strings.HasPrefix`. -/
def strings.HasPrefix (s pre : String) : Bool := pre.data.isPrefixOf s.data

/-- Go `strings.TrimPrefix`: `s` without the leading `pre`, or `s` itself when
`s` does not start with `pre`. -/
def strings.TrimPrefix (s pre : String) : String :=
  if strings.HasPrefix s pre then String.mk (s.data.drop pre.data.length) else s

/-- The two errors of `strconv`. -/
inductive NumError where
  | errSyntax
  | errRange
  deriving DecidableEq, Repr

/-- Largest `uint64`. -/
def maxUint64 : Nat := 18446744073709551615

/-- The digit loop of `strconv.ParseUint(s, 10, 64)`: a byte that is not a
decimal digit ends it with a syntax error and value 0, an overflow of `uint64`
ends it at once with a range error and the maximum value. -/
def strconv.parseUintLoop : List Char → Nat → Nat × Option NumError
  | [], n => (n, none)
  | c :: cs, n =>
    if c.isDigit then
      if n ≥ maxUint64 / 10 + 1 then (maxUint64, some NumError.errRange)
      else
        let n1 := n * 10 + (c.toNat - 48)
        if n1 > maxUint64 then (maxUint64, some NumError.errRange)
        else strconv.parseUintLoop cs n1
    else (0, some NumError.errSyntax)

/-- Go `strconv.ParseUint(s, 10, 64)`. -/
def strconv.ParseUint (s : List Char) : Nat × Option NumError :=
  match s with
  | [] => (0, some NumError.errSyntax)
  | _ => strconv.parseUintLoop s 0

/-- Go `strconv.ParseInt(s, 10, 0)` on a 64-bit platform. -/
def strconv.ParseInt (s : List Char) : Int × Option NumError :=
  match s with
  | [] => (0, some NumError.errSyntax)
  | c :: cs =>
    let neg := c == '-'
    let rest := if c == '+' || c == '-' then cs else c :: cs
    match strconv.ParseUint rest with
    | (_, some NumError.errSyntax) => (0, some NumError.errSyntax)
    | (un, _) =>
      if !neg && un ≥ 9223372036854775808 then (maxInt, some NumError.errRange)
      else if neg && un > 9223372036854775808 then (minInt, some NumError.errRange)
      else (if neg then -(un : Int) else (un : Int), none)

/-- Go `strconv.Atoi`: the value and the error. Its fast path for short inputs
returns what `ParseInt` returns on them. -/
def strconv.Atoi (s : String) : Int × Option NumError := strconv.ParseInt s.data

/-! ## Requests and responses -/

/-- A value stored in a request context. -/
inductive CtxValue where
  | str (s : String)
  | other
  deriving DecidableEq, Repr

/-- The parts of `*http.Request` the handlers read. `body` is what
`json.NewDecoder(r.Body).Decode(&req)` leaves in `req`, `none` when it returns
an error. -/
structure Request (β : Type) where
  header : List (String × String)
  cookies : List (String × String)
  query : List (String × String)
  urlParams : List (String × String)
  body : Option β
  ctx : List (String × CtxValue)

/-- First value stored under a key, the empty string when there is none:
`r.Header.Get`, `r.URL.Query().Get` and `chi.URLParam`. -/
def getOrEmpty (kvs : List (String × String)) (key : String) : String :=
  (kvs.lookup key).getD ""

/-- Go `r.Cookie(name)`: the value of the first cookie of that name, `none` for
`http.ErrNoCookie`. -/
def Request.Cookie {β : Type} (r : Request β) (name : String) : Option String :=
  r.cookies.lookup name

/-- Go `context.WithValue` followed by `r.WithContext`. -/
def Request.WithValue {β : Type} (r : Request β) (key : String) (v : CtxValue) : Request β :=
  { r with ctx := (key, v) :: r.ctx }

/-- The block `models.Pagination`. -/
structure Pagination where
  Page : Int
  Limit : Int
  Total : Int
  TotalPages : Int
  HasMore : Bool
  deriving DecidableEq, Repr

/-- The struct `models.Author`. -/
structure Author where
  ID : String
  Username : String
  deriving DecidableEq, Repr

/-- The struct `models.Campground` as `List` fills it (no comments). -/
structure Campground where
  ID : Int
  Name : String
  Price : String
  Image : String
  Description : String
  Location : Option String
  AuthorID : Option String
  Author : Option Author
  CreatedAt : Nat
  UpdatedAt : Nat
  deriving DecidableEq, Repr

/-- The struct `models.User` as it is written to a response: the field
`Password` is tagged `json:"-"` and never written. -/
structure User where
  ID : String
  Username : String
  Email : String
  CreatedAt : Nat
  UpdatedAt : Nat
  deriving DecidableEq, Repr

/-- The struct `models.Comment`. -/
structure Comment where
  ID : Int
  Text : String
  CampgroundID : Int
  AuthorID : Option String
  Author : Option Author
  CreatedAt : Nat
  UpdatedAt : Nat
  deriving DecidableEq, Repr

/-- What a handler writes as the response body. -/
inductive Body where
  /-- The text given to `http.Error`. -/
  | text (s : String)
  /-- The struct `models.ErrorResponse{Error: msg}` written by `respondError`. -/
  | error (msg : String)
  /-- The map `{"message": msg}`. -/
  | message (msg : String)
  /-- The struct `models.PaginatedResponse`. -/
  | paginated (data : List Campground) (pagination : Pagination)
  /-- The struct `models.User`. -/
  | user (u : User)
  /-- The struct `models.Campground` with its field `Comments`. -/
  | campground (c : Campground) (comments : List Comment)
  deriving DecidableEq, Repr

/-- Status line and body of a response. -/
structure Response where
  status : Nat
  body : Body
  deriving DecidableEq, Repr

def StatusOK : Nat := 200
def StatusCreated : Nat := 201
def StatusBadRequest : Nat := 400
def StatusUnauthorized : Nat := 401
def StatusForbidden : Nat := 403
def StatusNotFound : Nat := 404
def StatusInternalServerError : Nat := 500

/-- The helper `respondJSON` of `helpers.go`. -/
def respondJSON (status : Nat) (data : Body) : Response := ⟨status, data⟩

/-- The helper `respondError` of `helpers.go`. -/
def respondError (status : Nat) (message : String) : Response :=
  respondJSON status (Body.error message)

/-! ## The relational store -/

/-- A row of table `users`. The column `id` is the key of the table. -/
structure UserRow where
  id : String
  username : String
  email : String
  password : String
  created_at : Nat
  updated_at : Nat
  deriving DecidableEq, Repr

/-- A row of table `campgrounds`. -/
structure CampgroundRow where
  id : Int
  name : String
  price : String
  image : String
  description : String
  location : Option String
  author_id : Option String
  created_at : Nat
  updated_at : Nat
  deriving DecidableEq, Repr

/-- A row of table `comments`. -/
structure CommentRow where
  id : Int
  text : String
  campground_id : Int
  author_id : Option String
  created_at : Nat
  updated_at : Nat
  deriving DecidableEq, Repr

/-- The state of the store: its three tables. -/
structure Store where
  users : List UserRow
  campgrounds : List CampgroundRow
  comments : List CommentRow
  deriving DecidableEq, Repr

/-- An argument bound to a placeholder `$n`. -/
inductive SqlArg where
  | text (s : String)
  | int (n : Int)
  | time (t : Nat)
  | null
  deriving DecidableEq, Repr

/-- A Go `*string` passed as an argument: `nil` is bound as `NULL`. -/
def SqlArg.ofPtr : Option String → SqlArg
  | some s => SqlArg.text s
  | none => SqlArg.null

/-- The statement texts the handlers send. -/
inductive Sql where
  /-- Statement `SELECT author_id FROM campgrounds WHERE id = $1` -/
  | campgroundAuthor
  /-- Statement `UPDATE campgrounds SET name = COALESCE($1, name), price = COALESCE($2, price),
  image = COALESCE($3, image), description = COALESCE($4, description),
  location = COALESCE($5, location), updated_at = $6 WHERE id = $7` -/
  | campgroundUpdate
  /-- Statement `DELETE FROM campgrounds WHERE id = $1` -/
  | campgroundDelete
  /-- Statement `SELECT author_id FROM comments WHERE id = $1` -/
  | commentAuthor
  /-- Statement `UPDATE comments SET text = $1, updated_at = $2 WHERE id = $3` -/
  | commentUpdate
  /-- Statement `DELETE FROM comments WHERE id = $1` -/
  | commentDelete
  /-- Statement `SELECT COUNT(*) FROM campgrounds`, with
  ` WHERE name ILIKE $1 OR description ILIKE $1 OR location ILIKE $1` appended
  when `filtered`. -/
  | campgroundCount (filtered : Bool)
  /-- Statement `SELECT c.*, u.id, u.username FROM campgrounds c LEFT JOIN users u ON
  c.author_id = u.id`, followed when `filtered` by
  ` WHERE c.name ILIKE $1 OR c.description ILIKE $1 OR c.location ILIKE $1
  ORDER BY c.created_at DESC LIMIT $2 OFFSET $3` and otherwise by
  ` ORDER BY c.created_at DESC LIMIT $1 OFFSET $2`. -/
  | campgroundList (filtered : Bool)
  /-- Statement `SELECT id, username, email, password, created_at, updated_at
  FROM users WHERE username = $1` -/
  | userByUsername
  /-- Statement `INSERT INTO campgrounds (name, price, image, description,
  location, author_id, created_at, updated_at) VALUES ($1, ..., $8) RETURNING id` -/
  | campgroundInsert
  /-- Statement `SELECT c.*, u.id, u.username FROM campgrounds c LEFT JOIN users u ON
  c.author_id = u.id WHERE c.id = $1` -/
  | campgroundById
  /-- Statement `SELECT c.*, u.id, u.username FROM comments c LEFT JOIN users u ON
  c.author_id = u.id WHERE c.campground_id = $1 ORDER BY c.created_at DESC` -/
  | commentsByCampground
  deriving DecidableEq, Repr

/-- A statement as sent to the pool: its text and its arguments. -/
structure Stmt where
  sql : Sql
  args : List SqlArg
  deriving DecidableEq, Repr

/-- Whether the statement is an `UPDATE` or a `DELETE`. -/
def Stmt.isMutation (st : Stmt) : Bool :=
  match st.sql with
  | Sql.campgroundUpdate => true
  | Sql.campgroundDelete => true
  | Sql.commentUpdate => true
  | Sql.commentDelete => true
  | _ => false

/-- SQL `COALESCE(arg, old)` on a text column. -/
def coalesce (arg : SqlArg) (old : String) : String :=
  match arg with
  | SqlArg.text s => s
  | _ => old

/-- SQL `COALESCE(arg, old)` on a nullable text column. -/
def coalesceOpt (arg : SqlArg) (old : Option String) : Option String :=
  match arg with
  | SqlArg.text s => some s
  | _ => old

/-- The author column read by one of the two `SELECT author_id ... WHERE id = $1`
statements: `none` when no row has that id or the column is `NULL`. -/
def Store.selectAuthor (s : Store) (st : Stmt) : Option String :=
  match st.sql, st.args with
  | Sql.campgroundAuthor, [SqlArg.int id] =>
    (s.campgrounds.find? (fun c => c.id == id)).bind (fun c => c.author_id)
  | Sql.commentAuthor, [SqlArg.int id] =>
    (s.comments.find? (fun c => c.id == id)).bind (fun c => c.author_id)
  | _, _ => none

/-- The store after an `UPDATE` or `DELETE` statement, `none` when the
statement is not one of those or its arguments do not fit its placeholders. -/
def Store.exec (s : Store) (st : Stmt) : Option Store :=
  match st.sql, st.args with
  | Sql.campgroundUpdate, [name, price, image, description, location, SqlArg.time now,
      SqlArg.int id] =>
    some { s with campgrounds := s.campgrounds.map (fun c =>
      if c.id == id then
        { c with
          name := coalesce name c.name
          price := coalesce price c.price
          image := coalesce image c.image
          description := coalesce description c.description
          location := coalesceOpt location c.location
          updated_at := now }
      else c) }
  | Sql.campgroundDelete, [SqlArg.int id] =>
    some { s with campgrounds := s.campgrounds.filter (fun c => !(c.id == id)) }
  | Sql.commentUpdate, [SqlArg.text text, SqlArg.time now, SqlArg.int id] =>
    some { s with comments := s.comments.map (fun c =>
      if c.id == id then { c with text := text, updated_at := now } else c) }
  | Sql.commentDelete, [SqlArg.int id] =>
    some { s with comments := s.comments.filter (fun c => !(c.id == id)) }
  | _, _ => none

/-- The connection pool `h.db`: the state of the store, the statements the
store answers with an error, and the rows whose `rows.Scan` fails. -/
structure Pool where
  store : Store
  fails : Stmt → Bool
  scanFails : CampgroundRow → Bool

/-- The call `h.db.QueryRow(ctx, sql, id).Scan(&authorID)` with its error
dropped: the pointer left in `authorID`, which stays `nil` on an error. -/
def Pool.scanAuthor (p : Pool) (st : Stmt) : Option String :=
  if p.fails st then none else p.store.selectAuthor st

/-- The call `h.db.Exec(ctx, sql, args...)`: the store after the statement, or
`none` for an error, which leaves the store as it was. -/
def Pool.Exec (p : Pool) (st : Stmt) : Option Store :=
  if p.fails st then none else p.store.exec st

/-- What a handler leaves behind: the response, the store, and the statements
it sent to the pool, in order. -/
structure Result where
  resp : Response
  store : Store
  log : List Stmt

/-! ## `middleware.GetUserID` -/

/-- The context key `UserIDKey`. -/
def UserIDKey : String := "userID"

/-- The function `GetUserID`: the string stored under `UserIDKey`, the empty
string when there is none or it is not a string. -/
def GetUserID {β : Type} (r : Request β) : String :=
  match r.ctx.lookup UserIDKey with
  | some (CtxValue.str s) => s
  | _ => ""

/-! ## Ownership-gated mutations -/

/-- The struct `models.UpdateCampgroundRequest`. -/
structure UpdateCampgroundRequest where
  Name : Option String
  Price : Option String
  Image : Option String
  Description : Option String
  Location : Option String
  deriving DecidableEq, Repr

/-- The struct `models.UpdateCommentRequest`. -/
structure UpdateCommentRequest where
  Text : String
  deriving DecidableEq, Repr

/-- The first message of `validator.ValidationErrors(validator.Validate(req))`
for an `UpdateCommentRequest` (`validate:"required,max=500"` on `Text`), `none`
when the request is valid. -/
def validateUpdateComment (req : UpdateCommentRequest) : Option String :=
  if req.Text = "" then some "Text is required"
  else if req.Text.length > 500 then some "Text must be at most 500 characters"
  else none

/-- The method `CampgroundHandler.Update`. -/
def CampgroundHandler.Update (h : Pool) (now : Nat) (r : Request UpdateCampgroundRequest) :
    Result :=
  let userID := GetUserID r
  match strconv.Atoi (getOrEmpty r.urlParams "id") with
  | (_, some _) => ⟨respondError StatusBadRequest "Invalid campground ID", h.store, []⟩
  | (id, none) =>
    let check : Stmt := ⟨Sql.campgroundAuthor, [SqlArg.int id]⟩
    let authorID := h.scanAuthor check
    if authorID = none ∨ authorID ≠ some userID then
      ⟨respondError StatusForbidden "You don't have permission to do that", h.store, [check]⟩
    else
      match r.body with
      | none => ⟨respondError StatusBadRequest "Invalid request body", h.store, [check]⟩
      | some req =>
        let upd : Stmt := ⟨Sql.campgroundUpdate,
          [SqlArg.ofPtr req.Name, SqlArg.ofPtr req.Price, SqlArg.ofPtr req.Image,
           SqlArg.ofPtr req.Description, SqlArg.ofPtr req.Location, SqlArg.time now,
           SqlArg.int id]⟩
        match h.Exec upd with
        | none =>
          ⟨respondError StatusInternalServerError "Failed to update campground", h.store,
            [check, upd]⟩
        | some store' =>
          ⟨respondJSON StatusOK (Body.message "Campground updated"), store', [check, upd]⟩

/-- The method `CampgroundHandler.Delete`. -/
def CampgroundHandler.Delete (h : Pool) (r : Request Unit) : Result :=
  let userID := GetUserID r
  match strconv.Atoi (getOrEmpty r.urlParams "id") with
  | (_, some _) => ⟨respondError StatusBadRequest "Invalid campground ID", h.store, []⟩
  | (id, none) =>
    let check : Stmt := ⟨Sql.campgroundAuthor, [SqlArg.int id]⟩
    let authorID := h.scanAuthor check
    if authorID = none ∨ authorID ≠ some userID then
      ⟨respondError StatusForbidden "You don't have permission to do that", h.store, [check]⟩
    else
      let del : Stmt := ⟨Sql.campgroundDelete, [SqlArg.int id]⟩
      match h.Exec del with
      | none =>
        ⟨respondError StatusInternalServerError "Failed to delete campground", h.store,
          [check, del]⟩
      | some store' =>
        ⟨respondJSON StatusOK (Body.message "Campground deleted"), store', [check, del]⟩

/-- The method `CommentHandler.Update`. -/
def CommentHandler.Update (h : Pool) (now : Nat) (r : Request UpdateCommentRequest) : Result :=
  let userID := GetUserID r
  match strconv.Atoi (getOrEmpty r.urlParams "id") with
  | (_, some _) => ⟨respondError StatusBadRequest "Invalid comment ID", h.store, []⟩
  | (id, none) =>
    let check : Stmt := ⟨Sql.commentAuthor, [SqlArg.int id]⟩
    let authorID := h.scanAuthor check
    if authorID = none ∨ authorID ≠ some userID then
      ⟨respondError StatusForbidden "You do not have permission to do that", h.store, [check]⟩
    else
      match r.body with
      | none => ⟨respondError StatusBadRequest "Invalid request body", h.store, [check]⟩
      | some req =>
        match validateUpdateComment req with
        | some msg => ⟨respondError StatusBadRequest msg, h.store, [check]⟩
        | none =>
          let upd : Stmt := ⟨Sql.commentUpdate,
            [SqlArg.text req.Text, SqlArg.time now, SqlArg.int id]⟩
          match h.Exec upd with
          | none =>
            ⟨respondError StatusInternalServerError "Failed to update comment", h.store,
              [check, upd]⟩
          | some store' =>
            ⟨respondJSON StatusOK (Body.message "Comment updated"), store', [check, upd]⟩

/-- The method `CommentHandler.Delete`. -/
def CommentHandler.Delete (h : Pool) (r : Request Unit) : Result :=
  let userID := GetUserID r
  match strconv.Atoi (getOrEmpty r.urlParams "id") with
  | (_, some _) => ⟨respondError StatusBadRequest "Invalid comment ID", h.store, []⟩
  | (id, none) =>
    let check : Stmt := ⟨Sql.commentAuthor, [SqlArg.int id]⟩
    let authorID := h.scanAuthor check
    if authorID = none ∨ authorID ≠ some userID then
      ⟨respondError StatusForbidden "You do not have permission to do that", h.store, [check]⟩
    else
      let del : Stmt := ⟨Sql.commentDelete, [SqlArg.int id]⟩
      match h.Exec del with
      | none =>
        ⟨respondError StatusInternalServerError "Failed to delete comment", h.store,
          [check, del]⟩
      | some store' =>
        ⟨respondJSON StatusOK (Body.message "Comment deleted"), store', [check, del]⟩

/-! ## Tokens: the package `jwt` as the repository uses it -/

/-- A value of a claim. -/
inductive JsonValue where
  | str (s : String)
  | num (n : Int)
  | other
  deriving DecidableEq, Repr

/-- The type `jwt.MapClaims`, read by key. -/
abbrev MapClaims := List (String × JsonValue)

/-- The dynamic type of `token.Claims`. -/
inductive Claims where
  | mapClaims (m : MapClaims)
  | other
  deriving DecidableEq, Repr

/-- The fields of `*jwt.Token` that `RequireAuth` reads. -/
structure Token where
  Claims : Claims
  Valid : Bool
  deriving DecidableEq, Repr

/-- The two calls into package `jwt`. `SignedString claims key` is
`jwt.NewWithClaims(jwt.SigningMethodHS256, claims).SignedString(key)`;
`Parse tokenString key now` is `jwt.Parse(tokenString, keyFunc)` with a
`keyFunc` that returns `key`, run when the clock reads `now`: `none` when it
returns an error, the token otherwise. -/
structure Jwt where
  SignedString : MapClaims → String → String
  Parse : String → String → Nat → Option Token

/-- The claim set built by `generateToken`. -/
def tokenClaims (sub : String) (exp : Int) : MapClaims :=
  [("sub", JsonValue.str sub), ("exp", JsonValue.num exp)]

/-- What package `jwt` promises for a token signed and parsed with the same
key, for an `exp` that is positive and below `2^53`: parsing gives back the
claims as a valid token while the clock is before the instant `exp` (in
seconds since the epoch), and returns an error from that instant on. Nothing
is promised for other values of `exp`: the package reads `exp` as a `float64`,
which is exact below `2^53` only, and takes `exp = 0` for an absent claim. -/
def Jwt.Lawful (j : Jwt) : Prop :=
  ∀ (sub : String) (exp : Int) (key : String) (now : Nat),
    0 < exp → exp < 9007199254740992 →
    j.Parse (j.SignedString (tokenClaims sub exp) key) key now =
      if (now : Int) < exp * 1000000000 then
        some ⟨Claims.mapClaims (tokenClaims sub exp), true⟩
      else none

/-- The constant `time.Hour`, a duration in nanoseconds. -/
def Hour : Nat := 3600 * 1000000000

/-- The constant `time.Second`, a duration in nanoseconds. -/
def Second : Nat := 1000000000

/-- Go `t.Unix()`: whole seconds since the epoch. -/
def Unix (t : Nat) : Int := ((t / 1000000000 : Nat) : Int)

/-- The function `generateToken` of `handlers/auth.go`, run when the clock
reads `now` and `JWT_SECRET` is `secret`. -/
def generateToken (jwt : Jwt) (secret : String) (now : Nat) (userID : String) : String :=
  jwt.SignedString (tokenClaims userID (Unix (now + 7 * 24 * Hour))) secret

/-! ## `middleware.RequireAuth` -/

/-- How `RequireAuth` ends: it writes a rejection itself, or calls the next
handler on a request. -/
inductive AuthStep (β : Type) where
  | reject (resp : Response)
  | next (r : Request β)

/-- The call `http.Error(w, body, code)`. -/
def httpError (body : String) (code : Nat) : Response := ⟨code, Body.text body⟩

/-- Lines 18 to 28 of `RequireAuth`: the value of `authHeader` after the
fallback to the `token` cookie, or the rejection written when there is neither
a header nor a cookie. -/
def RequireAuth.authHeader {β : Type} (r : Request β) : Except Response String :=
  let authHeader := getOrEmpty r.header "Authorization"
  if authHeader = "" then
    match r.Cookie "token" with
    | none =>
      Except.error (httpError "\x7b\"error\":\"Authentication required\"\x7d" StatusUnauthorized)
    | some value => Except.ok ("Bearer " ++ value)
  else Except.ok authHeader

/-- Lines 30 to 35 of `RequireAuth`: the token string cut out of `authHeader`, or
the rejection written when the header does not start with `Bearer `. -/
def RequireAuth.trim (authHeader : String) : Except Response String :=
  let tokenString := strings.TrimPrefix authHeader "Bearer "
  if tokenString = authHeader then
    Except.error (httpError "\x7b\"error\":\"Invalid token format\"\x7d" StatusUnauthorized)
  else Except.ok tokenString

/-- Lines 18 to 35 of `RequireAuth`: the token string taken from the
`Authorization` header or else the `token` cookie, or the rejection written. -/
def RequireAuth.tokenString {β : Type} (r : Request β) : Except Response String :=
  match RequireAuth.authHeader r with
  | Except.error resp => Except.error resp
  | Except.ok authHeader => RequireAuth.trim authHeader

/-- Lines 37 to 63 of `RequireAuth`: validation of the token string and the
hand-over to the next handler. `parse` is `jwt.Parse` with the key function of
the source. -/
def RequireAuth.validate {β : Type} (parse : String → Option Token) (r : Request β)
    (tokenString : String) : AuthStep β :=
  match parse tokenString with
  | none => AuthStep.reject (httpError "\x7b\"error\":\"Invalid token\"\x7d" StatusUnauthorized)
  | some token =>
    if !token.Valid then
      AuthStep.reject (httpError "\x7b\"error\":\"Invalid token\"\x7d" StatusUnauthorized)
    else
      match token.Claims with
      | Claims.other =>
        AuthStep.reject
          (httpError "\x7b\"error\":\"Invalid token claims\"\x7d" StatusUnauthorized)
      | Claims.mapClaims claims =>
        match claims.lookup "sub" with
        | some (JsonValue.str userID) =>
          AuthStep.next (r.WithValue UserIDKey (CtxValue.str userID))
        | _ =>
          AuthStep.reject
            (httpError "\x7b\"error\":\"Invalid user ID in token\"\x7d" StatusUnauthorized)

/-- A run of `RequireAuth` up to the call of the next handler: the token
strings it gave to `jwt.Parse`, and how it ended. -/
structure AuthRun (β : Type) where
  parsed : List String
  out : AuthStep β

/-- The body of the handler returned by `RequireAuth`. -/
def RequireAuth.run {β : Type} (parse : String → Option Token) (r : Request β) : AuthRun β :=
  match RequireAuth.tokenString r with
  | Except.error resp => ⟨[], AuthStep.reject resp⟩
  | Except.ok tokenString => ⟨[tokenString], RequireAuth.validate parse r tokenString⟩

/-- The middleware `RequireAuth` around a handler `next`. -/
def RequireAuth {β : Type} (parse : String → Option Token)
    (next : Pool → Request β → Result) (h : Pool) (r : Request β) : Result :=
  match (RequireAuth.run parse r).out with
  | AuthStep.reject resp => ⟨resp, h.store, []⟩
  | AuthStep.next r' => next h r'

/-! ## The listing queries -/

/-- Whether `f` accepts some suffix of the text: what a `%` in a pattern may
skip. -/
def likeAny (f : List Char → Bool) : List Char → Bool
  | [] => f []
  | c :: t => f (c :: t) || likeAny f t

/-- SQL `text LIKE pattern` with the default escape character: `%` stands for
any run of characters, `_` for any one character, a backslash makes the next
pattern character literal. The arguments are the pattern, then the text. (A
pattern ending in a lone backslash is an error in the store; the patterns built
by `List` end in `%`.) -/
def likeMatch : List Char → List Char → Bool
  | [], t => t.isEmpty
  | c :: p, t =>
    if c = '%' then likeAny (likeMatch p) t
    else if c = '_' then
      match t with
      | [] => false
      | _ :: t' => likeMatch p t'
    else if c = '\\' then
      match p, t with
      | e :: p', d :: t' => e == d && likeMatch p' t'
      | _, _ => false
    else
      match t with
      | [] => false
      | d :: t' => c == d && likeMatch p t'

/-- SQL `text ILIKE pattern`: `LIKE` without regard to letter case. -/
def ilike (text pattern : String) : Bool :=
  likeMatch (pattern.data.map Char.toLower) (text.data.map Char.toLower)

/-- The row condition `name ILIKE $1 OR description ILIKE $1 OR location ILIKE $1`;
a `NULL` location matches nothing. -/
def CampgroundRow.matchesSearch (pattern : String) (c : CampgroundRow) : Bool :=
  ilike c.name pattern || ilike c.description pattern ||
    (match c.location with
     | some l => ilike l pattern
     | none => false)

/-- The result of `SELECT COUNT(*) FROM campgrounds [WHERE ...]`, `none` when the
arguments do not fit the placeholders. -/
def Store.count (s : Store) (st : Stmt) : Option Int :=
  match st.sql, st.args with
  | Sql.campgroundCount false, [] => some (s.campgrounds.length : Int)
  | Sql.campgroundCount true, [SqlArg.text pattern] =>
    some ((s.campgrounds.filter (CampgroundRow.matchesSearch pattern)).length : Int)
  | _, _ => none

/-- A row of the listing query: the campground columns and the two columns of
the joined user, `NULL` when no user has the author's id. -/
structure ListRow where
  c : CampgroundRow
  u_id : Option String
  u_username : Option String
  deriving DecidableEq, Repr

/-- The clause `LEFT JOIN users u ON c.author_id = u.id`, `users.id` being a key. -/
def Store.joinAuthor (s : Store) (c : CampgroundRow) : ListRow :=
  match c.author_id with
  | none => ⟨c, none, none⟩
  | some a =>
    match s.users.find? (fun u => u.id == a) with
    | some u => ⟨c, some u.id, some u.username⟩
    | none => ⟨c, none, none⟩

/-- The clause `ORDER BY c.created_at DESC`. -/
def orderByCreatedDesc (rows : List CampgroundRow) : List CampgroundRow :=
  rows.insertionSort (fun a b => a.created_at ≥ b.created_at)

/-- The clauses `ORDER BY c.created_at DESC LIMIT limit OFFSET offset` and the
join, `none` when `limit` or `offset` is negative (an error in the store). -/
def Store.page (s : Store) (rows : List CampgroundRow) (limit offset : Int) :
    Option (List ListRow) :=
  if limit < 0 ∨ offset < 0 then none
  else some ((((orderByCreatedDesc rows).drop offset.toNat).take limit.toNat).map s.joinAuthor)

/-- The rows of the listing query, `none` when the store raises an error. -/
def Store.list (s : Store) (st : Stmt) : Option (List ListRow) :=
  match st.sql, st.args with
  | Sql.campgroundList false, [SqlArg.int limit, SqlArg.int offset] =>
    s.page s.campgrounds limit offset
  | Sql.campgroundList true, [SqlArg.text pattern, SqlArg.int limit, SqlArg.int offset] =>
    s.page (s.campgrounds.filter (CampgroundRow.matchesSearch pattern)) limit offset
  | _, _ => none

/-- The call `h.db.QueryRow(ctx, countQuery, args...).Scan(&total)` with its
error dropped: the value left in `total`, which stays 0 on an error. -/
def Pool.scanCount (p : Pool) (st : Stmt) : Int :=
  if p.fails st then 0 else (p.store.count st).getD 0

/-- The call `h.db.Query(ctx, query, args...)`: `none` when it returns an error,
the rows otherwise. An error the store raises while it runs the statement
shows up in `rows.Err()`, which `List` does not read: the rows just end. -/
def Pool.Query (p : Pool) (st : Stmt) : Option (List ListRow) :=
  if p.fails st then none else some ((p.store.list st).getD [])

/-- The call `rows.Scan(...)` on a row of the listing and the lines that follow
it: the `models.Campground` built from the row, `none` when `Scan` returns an
error. -/
def Pool.scanRow (p : Pool) (row : ListRow) : Option Campground :=
  if p.scanFails row.c then none
  else
    some
      { ID := row.c.id
        Name := row.c.name
        Price := row.c.price
        Image := row.c.image
        Description := row.c.description
        Location := row.c.location
        AuthorID := row.c.author_id
        Author :=
          match row.u_id, row.u_username with
          | some authorID, some authorUsername => some ⟨authorID, authorUsername⟩
          | _, _ => none
        CreatedAt := row.c.created_at
        UpdatedAt := row.c.updated_at }

/-- The loop `for rows.Next()` of `List`. A row whose `Scan` fails is passed
over with `continue`; the failed `Scan` has closed the result set, so the next
`rows.Next()` returns false and the loop ends: the campgrounds are those of
the rows before the first one that cannot be read. -/
def Pool.scanRows (p : Pool) : List ListRow → List Campground
  | [] => []
  | row :: rest =>
    match p.scanRow row with
    | none => []
    | some c => c :: p.scanRows rest

/-! ## `CampgroundHandler.List` -/

/-- Lines 26 to 29 of `List`: the page number, the error of `Atoi` dropped. -/
def List.page (r : Request Unit) : Int :=
  let page := (strconv.Atoi (getOrEmpty r.query "page")).1
  if page < 1 then 1 else page

/-- Line 31 of `List`: `offset := (page - 1) * limit`. -/
def List.offset (page limit : Int) : Int := intMul (intSub page 1) limit

/-- Lines 36 to 41 of `List`: the count statement for a search term. -/
def List.countStmt (search : String) : Stmt :=
  let args : List SqlArg := []
  if search ≠ "" then ⟨Sql.campgroundCount true, args ++ [SqlArg.text ("%" ++ search ++ "%")]⟩
  else ⟨Sql.campgroundCount false, args⟩

/-- Lines 45 to 58 of `List`: the data statement, `args` being the arguments
of the count statement. -/
def List.dataStmt (search : String) (args : List SqlArg) (limit offset : Int) : Stmt :=
  if search ≠ "" then
    ⟨Sql.campgroundList true, args ++ [SqlArg.int limit, SqlArg.int offset]⟩
  else ⟨Sql.campgroundList false, [SqlArg.int limit, SqlArg.int offset]⟩

/-- Lines 82 to 91 of `List`: the pagination block. -/
def List.pagination (page limit total : Int) : Pagination :=
  let totalPages := intDiv (intSub (intAdd total limit) 1) limit
  { Page := page
    Limit := limit
    Total := total
    TotalPages := totalPages
    HasMore := decide (page < totalPages) }

/-- The method `CampgroundHandler.List`. -/
def CampgroundHandler.List (h : Pool) (r : Request Unit) : Result :=
  let page := List.page r
  let limit : Int := 12
  let offset := List.offset page limit
  let search := getOrEmpty r.query "search"
  let countStmt := List.countStmt search
  let total := h.scanCount countStmt
  let dataStmt := List.dataStmt search countStmt.args limit offset
  match h.Query dataStmt with
  | none =>
    ⟨respondError StatusInternalServerError "Database error", h.store, [countStmt, dataStmt]⟩
  | some rows =>
    let campgrounds := h.scanRows rows
    ⟨respondJSON StatusOK (Body.paginated campgrounds (List.pagination page limit total)),
      h.store, [countStmt, dataStmt]⟩

/-! ## Properties stated about the handlers -/

/-- The ownership read of a mutating handler decides its outcome: the response
`res.resp` is not the 403 response exactly when the author read from the pool
is the acting identity `user`; it is 403 whenever the author stored for the id
is another identity or none (no row, or a `NULL` author); and it is never 404. -/
def OwnershipGated (res : Result) (read stored : Option String) (user : String) : Prop :=
  (res.resp.status ≠ StatusForbidden ↔ read = some user) ∧
  (stored ≠ some user → res.resp.status = StatusForbidden) ∧
  res.resp.status ≠ StatusNotFound

/-- The ownership statement that guards a mutation: the `SELECT author_id` on
the same table for the id bound in the mutation's `WHERE id = $n`, which is
its last argument. -/
def Stmt.guard (st : Stmt) : Option Stmt :=
  match st.sql, st.args.getLast? with
  | Sql.campgroundUpdate, some (SqlArg.int id) => some ⟨Sql.campgroundAuthor, [SqlArg.int id]⟩
  | Sql.campgroundDelete, some (SqlArg.int id) => some ⟨Sql.campgroundAuthor, [SqlArg.int id]⟩
  | Sql.commentUpdate, some (SqlArg.int id) => some ⟨Sql.commentAuthor, [SqlArg.int id]⟩
  | Sql.commentDelete, some (SqlArg.int id) => some ⟨Sql.commentAuthor, [SqlArg.int id]⟩
  | _, _ => none

/-- A handler run `res` on pool `h` mutates only behind the ownership check:
the store is left as it was unless the id parameter parses to an id whose
stored author is `user`; and a mutation is sent only as the second statement,
right after the ownership statement for the same table and id, which read
`user`. -/
def MutationGuarded (h : Pool) (res : Result) (idParam : String) (authorSql : Sql)
    (user : String) : Prop :=
  ((¬ ∃ id, strconv.Atoi idParam = (id, none) ∧
        h.store.selectAuthor ⟨authorSql, [SqlArg.int id]⟩ = some user) →
      res.store = h.store) ∧
  (∀ st ∈ res.log, st.isMutation = true →
    ∃ check, st.guard = some check ∧ check.sql = authorSql ∧ res.log = [check, st] ∧
      h.scanAuthor check = some user)

/-- The request carries a token string that `RequireAuth` extracts, that
verifies under `parse` (no error and `Valid`), and whose claims are map claims
with a string `sub` equal to `u`. -/
def Verified {β : Type} (parse : String → Option Token) (r : Request β) (u : String) : Prop :=
  ∃ ts tok m, RequireAuth.tokenString r = Except.ok ts ∧ parse ts = some tok ∧
    tok.Valid = true ∧ tok.Claims = Claims.mapClaims m ∧
    m.lookup "sub" = some (JsonValue.str u)

/-- The rejection written for a token that does not verify. -/
def invalidToken : Response :=
  httpError "\x7b\"error\":\"Invalid token\"\x7d" StatusUnauthorized

/-- The rejection written for a verified token without a string `sub`. -/
def invalidUserID : Response :=
  httpError "\x7b\"error\":\"Invalid user ID in token\"\x7d" StatusUnauthorized

/-- What an observer of `RequireAuth` sees of its end: the rejection, or the
identity attached to the request handed on. -/
def AuthStep.verdict {β : Type} : AuthStep β → Except Response String
  | AuthStep.reject resp => Except.error resp
  | AuthStep.next r => Except.ok (GetUserID r)

/-- The rejection written when there is neither a header nor a cookie. -/
def authenticationRequired : Response :=
  httpError "\x7b\"error\":\"Authentication required\"\x7d" StatusUnauthorized

/-- The rejection written for a header that does not start with `Bearer `. -/
def invalidTokenFormat : Response :=
  httpError "\x7b\"error\":\"Invalid token format\"\x7d" StatusUnauthorized

/-! ## A stand-in for package `jwt`

Not the HS256 wire format: a small token format that meets `Jwt.Lawful`, so
that the law is known to be satisfiable. A token is a sign, the magnitude of
`exp` in unary, a dot, the length of the key in unary, a dot, the key, the
subject. -/

/-- Reads a run of `i` closed by a dot: its length and what follows the dot. -/
def toyReadUnary : List Char → Option (Nat × List Char)
  | [] => none
  | c :: cs =>
    if c = 'i' then (toyReadUnary cs).map (fun p => (p.1 + 1, p.2))
    else if c = '.' then some (0, cs)
    else none

/-- Writes a token for the claims `sub` and `exp` under a key. -/
def toySign (claims : MapClaims) (key : String) : String :=
  match claims.lookup "sub", claims.lookup "exp" with
  | some (JsonValue.str sub), some (JsonValue.num exp) =>
    String.mk ((if exp < 0 then '-' else '+') ::
      (List.replicate exp.natAbs 'i' ++ '.' ::
        (List.replicate key.data.length 'i' ++ '.' :: (key.data ++ sub.data))))
  | _, _ => ""

/-- Reads a token back, checks the key it was written under and its expiry. -/
def toyParse (tokenString key : String) (now : Nat) : Option Token :=
  match tokenString.data with
  | [] => none
  | sgn :: cs =>
    match toyReadUnary cs with
    | none => none
    | some (m, r1) =>
      match toyReadUnary r1 with
      | none => none
      | some (k, r2) =>
        if r2.take k = key.data then
          let exp : Int := if sgn = '-' then -(m : Int) else (m : Int)
          if (now : Int) < exp * 1000000000 then
            some ⟨Claims.mapClaims (tokenClaims (String.mk (r2.drop k)) exp), true⟩
          else none
        else none

/-- The stand-in as an instance of the interface. -/
def toyJwt : Jwt := ⟨toySign, toyParse⟩

/-- A request that bears a token in its `Authorization` header. -/
def bearerRequest (token : String) : Request Unit :=
  { header := [("Authorization", "Bearer " ++ token)]
    cookies := []
    query := []
    urlParams := []
    body := none
    ctx := [] }

/-- A listing request with the given `page` parameter and no search term. -/
def pageRequest (page : String) : Request Unit :=
  { header := []
    cookies := []
    query := [("page", page)]
    urlParams := []
    body := none
    ctx := [] }

/-- The rows of `campgrounds` a search term selects: all of them for the empty
term, those matching the pattern `%term%` otherwise. -/
def Store.selected (s : Store) (search : String) : List CampgroundRow :=
  if search ≠ "" then s.campgrounds.filter (CampgroundRow.matchesSearch ("%" ++ search ++ "%"))
  else s.campgrounds

/-- The `term` occurs in the `field` as a substring, letter case aside. -/
def containsIgnoreCase (field term : String) : Prop :=
  (term.data.map Char.toLower) <:+: (field.data.map Char.toLower)

instance (field term : String) : Decidable (containsIgnoreCase field term) :=
  inferInstanceAs (Decidable (_ <:+: _))

/-- The `term` occurs in the name, the description or the location of the row. -/
def CampgroundRow.containsTerm (term : String) (c : CampgroundRow) : Prop :=
  containsIgnoreCase c.name term ∨ containsIgnoreCase c.description term ∨
    (match c.location with
     | some l => containsIgnoreCase l term
     | none => False)

instance (term : String) (c : CampgroundRow) : Decidable (c.containsTerm term) := by
  unfold CampgroundRow.containsTerm
  cases c.location <;> exact inferInstance

/-- A listing request for page 1 with the given `search` parameter. -/
def searchRequest (search : String) : Request Unit :=
  { header := []
    cookies := []
    query := [("search", search)]
    urlParams := []
    body := none
    ctx := [] }

/-- The campground of the sample store. -/
def lakeRow : CampgroundRow :=
  ⟨7, "Lake", "10", "http://x/y.png", "By the lake", none, some "alice", 5, 5⟩

/-- A campground whose name holds a backslash. -/
def slashRow : CampgroundRow :=
  ⟨8, "North\\South", "12", "http://x/z.png", "Ridge", none, some "alice", 4, 4⟩

/-- A store with the two campgrounds `lakeRow` and `slashRow`. -/
def twoStore : Store :=
  { users := [⟨"alice", "alice", "alice@x.com", "hash", 1, 1⟩]
    campgrounds := [lakeRow, slashRow]
    comments := [] }

/-- The term, in lower case, holds none of the characters `%`, `_` and `\`
that mean something else than themselves in a `LIKE` pattern. -/
def plainTerm (term : String) : Prop :=
  ∀ c ∈ term.data.map Char.toLower, c ≠ '%' ∧ c ≠ '_' ∧ c ≠ '\\'

/-! ## `AuthHandler.Login` -/

/-- The struct `models.LoginRequest`. -/
structure LoginRequest where
  Username : String
  Password : String
  deriving DecidableEq, Repr

/-- The first message of `validator.ValidationErrors(validator.Validate(req))`
for a `LoginRequest` (`validate:"required"` on both fields), `none` when the
request is valid. -/
def validateLogin (req : LoginRequest) : Option String :=
  if req.Username = "" then some "Username is required"
  else if req.Password = "" then some "Password is required"
  else none

/-- A cookie written with `http.SetCookie`. -/
structure Cookie where
  Name : String
  Value : String
  Path : String
  MaxAge : Int
  HttpOnly : Bool
  SameSiteLax : Bool
  deriving DecidableEq, Repr

/-- The cookie written by `setTokenCookie` of `handlers/auth.go`. -/
def setTokenCookie (token : String) : Cookie :=
  { Name := "token"
    Value := token
    Path := "/"
    MaxAge := 7 * 24 * 60 * 60
    HttpOnly := true
    SameSiteLax := true }

/-- The row read by `SELECT ... FROM users WHERE username = $1`: `none` when no
user has that name. -/
def Store.userByUsername (s : Store) (st : Stmt) : Option UserRow :=
  match st.sql, st.args with
  | Sql.userByUsername, [SqlArg.text username] =>
    s.users.find? (fun u => u.username == username)
  | _, _ => none

/-- The call `h.db.QueryRow(ctx, sql, username).Scan(...)` of `Login`: the row
scanned, `none` when `Scan` returns an error (no row, or an error of the store). -/
def Pool.scanUser (p : Pool) (st : Stmt) : Option UserRow :=
  if p.fails st then none else p.store.userByUsername st

/-- What a handler of `handlers/auth.go` leaves behind: the response, the
cookies it set, the store, and the statements it sent. -/
structure AuthResult where
  resp : Response
  cookies : List Cookie
  store : Store
  log : List Stmt

/-- The method `AuthHandler.Login`, run when the clock reads `now` and
`JWT_SECRET` is `secret`. `CompareHashAndPassword hash password` tells whether
`bcrypt.CompareHashAndPassword` returns no error. -/
def AuthHandler.Login (h : Pool) (jwt : Jwt) (secret : String) (now : Nat)
    (CompareHashAndPassword : String → String → Bool) (r : Request LoginRequest) : AuthResult :=
  match r.body with
  | none => ⟨respondError StatusBadRequest "Invalid request body", [], h.store, []⟩
  | some req =>
    match validateLogin req with
    | some msg => ⟨respondError StatusBadRequest msg, [], h.store, []⟩
    | none =>
      let find : Stmt := ⟨Sql.userByUsername, [SqlArg.text req.Username]⟩
      match h.scanUser find with
      | none => ⟨respondError StatusUnauthorized "Invalid credentials", [], h.store, [find]⟩
      | some row =>
        if !CompareHashAndPassword row.password req.Password then
          ⟨respondError StatusUnauthorized "Invalid credentials", [], h.store, [find]⟩
        else
          let token := generateToken jwt secret now row.id
          ⟨respondJSON StatusOK
              (Body.user ⟨row.id, row.username, row.email, row.created_at, row.updated_at⟩),
            [setTokenCookie token], h.store, [find]⟩

/-- A login request with the given credentials. -/
def loginRequest (username password : String) : Request LoginRequest :=
  { header := []
    cookies := []
    query := []
    urlParams := []
    body := some ⟨username, password⟩
    ctx := [] }

/-! ## `CampgroundHandler.Create` and `CampgroundHandler.GetByID` -/

/-- The struct `models.CreateCampgroundRequest`. -/
structure CreateCampgroundRequest where
  Name : String
  Price : String
  Image : String
  Description : String
  Location : Option String
  deriving DecidableEq, Repr

/-- The first message of `validator.ValidationErrors(validator.Validate(req))`
for a `CreateCampgroundRequest`, `none` when the request is valid. The fields
are checked in the order of the struct, the tags of a field in their order;
`isURL` is the check behind the tag `url`. -/
def validateCreateCampground (isURL : String → Bool) (req : CreateCampgroundRequest) :
    Option String :=
  if req.Name = "" then some "Name is required"
  else if req.Name.length > 100 then some "Name must be at most 100 characters"
  else if req.Price = "" then some "Price is required"
  else if req.Image = "" then some "Image is required"
  else if !isURL req.Image then some "Image must be a valid URL"
  else if req.Description = "" then some "Description is required"
  else if req.Description.length > 5000 then
    some "Description must be at most 5000 characters"
  else
    match req.Location with
    | some l =>
      if l.length > 200 then some "Location must be at most 200 characters" else none
    | none => none

/-- The text bound by an argument, `none` for `NULL`. -/
def SqlArg.toText : SqlArg → Option String
  | SqlArg.text s => some s
  | _ => none

/-- The store after `INSERT INTO campgrounds ... RETURNING id`, when the
sequence of the table hands out `id`. The column `id` is the key of the table:
an id already present is refused. `none` stands for an error. -/
def Store.insertCampground (s : Store) (st : Stmt) (id : Int) : Option Store :=
  match st.sql, st.args with
  | Sql.campgroundInsert, [SqlArg.text name, SqlArg.text price, SqlArg.text image,
      SqlArg.text description, location, author, SqlArg.time created, SqlArg.time updated] =>
    if s.campgrounds.any (fun c => c.id == id) then none
    else
      some { s with campgrounds := s.campgrounds ++
        [⟨id, name, price, image, description, location.toText, author.toText, created,
          updated⟩] }
  | _, _ => none

/-- The call `h.db.QueryRow(ctx, insert, args...).Scan(&id)` of `Create`: the id
scanned and the store after the statement, `none` for an error. -/
def Pool.insertReturning (p : Pool) (st : Stmt) (id : Int) : Option (Int × Store) :=
  if p.fails st then none else (p.store.insertCampground st id).map (fun s => (id, s))

/-- The method `CampgroundHandler.Create`, run when the clock reads `now` and
the sequence of the table is at `seq`. -/
def CampgroundHandler.Create (h : Pool) (now : Nat) (isURL : String → Bool) (seq : Int)
    (r : Request CreateCampgroundRequest) : Result :=
  let userID := GetUserID r
  match r.body with
  | none => ⟨respondError StatusBadRequest "Invalid request body", h.store, []⟩
  | some req =>
    match validateCreateCampground isURL req with
    | some msg => ⟨respondError StatusBadRequest msg, h.store, []⟩
    | none =>
      let ins : Stmt := ⟨Sql.campgroundInsert,
        [SqlArg.text req.Name, SqlArg.text req.Price, SqlArg.text req.Image,
         SqlArg.text req.Description, SqlArg.ofPtr req.Location, SqlArg.text userID,
         SqlArg.time now, SqlArg.time now]⟩
      match h.insertReturning ins seq with
      | none =>
        ⟨respondError StatusInternalServerError "Failed to create campground", h.store, [ins]⟩
      | some (id, store') =>
        ⟨respondJSON StatusCreated
            (Body.campground
              { ID := id
                Name := req.Name
                Price := req.Price
                Image := req.Image
                Description := req.Description
                Location := req.Location
                AuthorID := some userID
                Author := none
                CreatedAt := now
                UpdatedAt := now } []),
          store', [ins]⟩

/-- The row read by the detail query `... WHERE c.id = $1`, `none` when no
campground has that id. -/
def Store.campgroundById (s : Store) (st : Stmt) : Option ListRow :=
  match st.sql, st.args with
  | Sql.campgroundById, [SqlArg.int id] =>
    (s.campgrounds.find? (fun c => c.id == id)).map s.joinAuthor
  | _, _ => none

/-- The call `h.db.QueryRow(ctx, detail, id).Scan(...)` of `GetByID`: the
campground scanned, `none` when `Scan` returns an error. -/
def Pool.scanCampground (p : Pool) (st : Stmt) : Option Campground :=
  if p.fails st then none
  else
    match p.store.campgroundById st with
    | none => none
    | some row => p.scanRow row

/-- The comments read by `GetByID` for a campground, newest first, each with
its author when a user has the author's id. -/
def Store.commentsByCampground (s : Store) (st : Stmt) : List Comment :=
  match st.sql, st.args with
  | Sql.commentsByCampground, [SqlArg.int id] =>
    (((s.comments.filter (fun c => c.campground_id == id)).insertionSort
        (fun a b => a.created_at ≥ b.created_at)).map (fun c =>
      { ID := c.id
        Text := c.text
        CampgroundID := c.campground_id
        AuthorID := c.author_id
        Author :=
          match c.author_id with
          | none => none
          | some a => (s.users.find? (fun u => u.id == a)).map (fun u => ⟨u.id, u.username⟩)
        CreatedAt := c.created_at
        UpdatedAt := c.updated_at }))
  | _, _ => []

/-- The comment loop of `GetByID`: the error of `Query` is dropped, and a
failed query yields no rows. (The pool has no failure of its own for the
reading of a comment row.) -/
def Pool.queryComments (p : Pool) (st : Stmt) : List Comment :=
  if p.fails st then [] else p.store.commentsByCampground st

/-- The method `CampgroundHandler.GetByID`. -/
def CampgroundHandler.GetByID (h : Pool) (r : Request Unit) : Result :=
  match strconv.Atoi (getOrEmpty r.urlParams "id") with
  | (_, some _) => ⟨respondError StatusBadRequest "Invalid campground ID", h.store, []⟩
  | (id, none) =>
    let detail : Stmt := ⟨Sql.campgroundById, [SqlArg.int id]⟩
    match h.scanCampground detail with
    | none => ⟨respondError StatusNotFound "Campground not found", h.store, [detail]⟩
    | some c =>
      let comments : Stmt := ⟨Sql.commentsByCampground, [SqlArg.int id]⟩
      ⟨respondJSON StatusOK (Body.campground c (h.queryComments comments)), h.store,
        [detail, comments]⟩

/-- The characters of a parameter after one leading sign, if it has one. -/
def unsignedPart (s : String) : List Char :=
  match s.data with
  | [] => []
  | c :: cs => if c = '+' ∨ c = '-' then cs else c :: cs

/-- The run of decimal digits at the head of the unsigned part. -/
def leadingDigits (s : String) : List Char := (unsignedPart s).takeWhile Char.isDigit

/-- The number a run of decimal digits denotes, continued from `n`. -/
def decimalFrom (n : Nat) (ds : List Char) : Nat :=
  ds.foldl (fun n c => n * 10 + (c.toNat - 48)) n

/-- The number a run of decimal digits denotes. -/
def decimalValue (ds : List Char) : Nat := decimalFrom 0 ds

/-- The value `strconv.Atoi` returns, as a function of the text. With `v` the
value of the digits that lead the unsigned part: 0 when the unsigned part is
empty; the bound of `int` on the side of the sign when `v` is beyond `uint64`,
whatever follows the digits; the signed value capped at the bounds of `int`
when the digits are all of the unsigned part; and 0 when another character
follows digits that stay within `uint64`. -/
def atoiValueOfText (s : String) : Int :=
  if unsignedPart s = [] then 0
  else if maxUint64 < decimalValue (leadingDigits s) then
    (if s.data.head? = some '-' then minInt else maxInt)
  else if leadingDigits s = unsignedPart s then
    (if s.data.head? = some '-' then
      (if 9223372036854775808 < decimalValue (leadingDigits s) then minInt
       else -(decimalValue (leadingDigits s) : Int))
     else
      (if 9223372036854775808 ≤ decimalValue (leadingDigits s) then maxInt
       else (decimalValue (leadingDigits s) : Int)))
  else 0

/-- The effective page as a function of the text of the parameter. With `v`
the value of the digits that lead the unsigned part: when the parameter does
not start with a minus sign, `v` is at least 1, and either the digits are all
of the unsigned part or `v` is beyond `uint64`, the page is `v` capped at
`maxInt`; in every other case it is 1. -/
def pageOfText (s : String) : Int :=
  if s.data.head? ≠ some '-' ∧ 1 ≤ decimalValue (leadingDigits s) ∧
      (leadingDigits s = unsignedPart s ∨ maxUint64 < decimalValue (leadingDigits s)) then
    min (decimalValue (leadingDigits s) : Int) maxInt
  else 1

/-! ## Sample data -/

/-- A store with one user, one campground and one comment, all of `alice`. -/
def sampleStore : Store :=
  { users := [⟨"alice", "alice", "alice@x.com", "hash", 1, 1⟩]
    campgrounds := [⟨7, "Lake", "10", "http://x/y.png", "By the lake", none, some "alice", 5, 5⟩]
    comments := [⟨3, "Nice", 7, some "alice", 6, 6⟩] }

/-- A pool over `sampleStore` that never fails. -/
def samplePool : Pool := ⟨sampleStore, fun _ => false, fun _ => false⟩

/-- A request for the resource `id` by the authenticated identity `user`. -/
def sampleRequest {β : Type} (id user : String) (body : Option β) : Request β :=
  { header := []
    cookies := []
    query := []
    urlParams := [("id", id)]
    body := body
    ctx := [(UserIDKey, CtxValue.str user)] }

/-- A pool over the sample store whose count statement fails. -/
def countFailPool : Pool :=
  ⟨sampleStore, fun st => decide (st.sql = Sql.campgroundCount false), fun _ => false⟩

/-- A pool over `twoStore` in which the row of `lakeRow` cannot be scanned. -/
def scanFailPool : Pool :=
  ⟨twoStore, fun _ => false, fun c => decide (c.id = 7)⟩

/-- The campground `alice` creates in the lifecycle example. -/
def hillRequest : Request CreateCampgroundRequest :=
  sampleRequest "" "alice" (some ⟨"Hill", "20", "http://x/h.png", "On the hill", some "North"⟩)

/-- A pool over a store that never fails. -/
def Pool.ofStore (s : Store) : Pool := ⟨s, fun _ => false, fun _ => false⟩

/-! # Theorems -/

/-! ## Ownership check (C1, C2) -/

theorem nil_or_ne_iff (a : Option String) (u : String) :
    (a = none ∨ a ≠ some u) ↔ a ≠ some u := by
  cases a <;> simp

theorem scanAuthor_eq_some {h : Pool} {st : Stmt} {u : String}
    (hs : h.scanAuthor st = some u) : h.store.selectAuthor st = some u := by
  unfold Pool.scanAuthor at hs
  split at hs
  · exact absurd hs (by simp)
  · exact hs

theorem gated_of_key {res : Result} {h : Pool} {st : Stmt} {user : String}
    (key : res.resp.status ≠ StatusForbidden ↔ h.scanAuthor st = some user)
    (h404 : res.resp.status ≠ StatusNotFound) :
    OwnershipGated res (h.scanAuthor st) (h.store.selectAuthor st) user := by
  refine ⟨key, ?_, h404⟩
  intro hne
  by_contra hc
  exact hne (scanAuthor_eq_some (key.mp hc))

theorem campground_update_gated (h : Pool) (now : Nat) (r : Request UpdateCampgroundRequest)
    (id : Int) (hid : strconv.Atoi (getOrEmpty r.urlParams "id") = (id, none)) :
    OwnershipGated (CampgroundHandler.Update h now r)
      (h.scanAuthor ⟨Sql.campgroundAuthor, [SqlArg.int id]⟩)
      (h.store.selectAuthor ⟨Sql.campgroundAuthor, [SqlArg.int id]⟩) (GetUserID r) := by
  apply gated_of_key
  · unfold CampgroundHandler.Update
    simp only [hid, nil_or_ne_iff]
    repeat' split
    all_goals simp_all [respondError, respondJSON, StatusForbidden, StatusBadRequest,
      StatusInternalServerError, StatusOK]
  · unfold CampgroundHandler.Update
    simp only [hid, nil_or_ne_iff]
    repeat' split
    all_goals simp [respondError, respondJSON, StatusForbidden, StatusBadRequest,
      StatusInternalServerError, StatusOK, StatusNotFound]

theorem campground_delete_gated (h : Pool) (r : Request Unit)
    (id : Int) (hid : strconv.Atoi (getOrEmpty r.urlParams "id") = (id, none)) :
    OwnershipGated (CampgroundHandler.Delete h r)
      (h.scanAuthor ⟨Sql.campgroundAuthor, [SqlArg.int id]⟩)
      (h.store.selectAuthor ⟨Sql.campgroundAuthor, [SqlArg.int id]⟩) (GetUserID r) := by
  apply gated_of_key
  · unfold CampgroundHandler.Delete
    simp only [hid, nil_or_ne_iff]
    repeat' split
    all_goals simp_all [respondError, respondJSON, StatusForbidden, StatusBadRequest,
      StatusInternalServerError, StatusOK]
  · unfold CampgroundHandler.Delete
    simp only [hid, nil_or_ne_iff]
    repeat' split
    all_goals simp [respondError, respondJSON, StatusForbidden, StatusBadRequest,
      StatusInternalServerError, StatusOK, StatusNotFound]

theorem comment_update_gated (h : Pool) (now : Nat) (r : Request UpdateCommentRequest)
    (id : Int) (hid : strconv.Atoi (getOrEmpty r.urlParams "id") = (id, none)) :
    OwnershipGated (CommentHandler.Update h now r)
      (h.scanAuthor ⟨Sql.commentAuthor, [SqlArg.int id]⟩)
      (h.store.selectAuthor ⟨Sql.commentAuthor, [SqlArg.int id]⟩) (GetUserID r) := by
  apply gated_of_key
  · unfold CommentHandler.Update
    simp only [hid, nil_or_ne_iff]
    repeat' split
    all_goals simp_all [respondError, respondJSON, StatusForbidden, StatusBadRequest,
      StatusInternalServerError, StatusOK]
  · unfold CommentHandler.Update
    simp only [hid, nil_or_ne_iff]
    repeat' split
    all_goals simp [respondError, respondJSON, StatusForbidden, StatusBadRequest,
      StatusInternalServerError, StatusOK, StatusNotFound]

theorem comment_delete_gated (h : Pool) (r : Request Unit)
    (id : Int) (hid : strconv.Atoi (getOrEmpty r.urlParams "id") = (id, none)) :
    OwnershipGated (CommentHandler.Delete h r)
      (h.scanAuthor ⟨Sql.commentAuthor, [SqlArg.int id]⟩)
      (h.store.selectAuthor ⟨Sql.commentAuthor, [SqlArg.int id]⟩) (GetUserID r) := by
  apply gated_of_key
  · unfold CommentHandler.Delete
    simp only [hid, nil_or_ne_iff]
    repeat' split
    all_goals simp_all [respondError, respondJSON, StatusForbidden, StatusBadRequest,
      StatusInternalServerError, StatusOK]
  · unfold CommentHandler.Delete
    simp only [hid, nil_or_ne_iff]
    repeat' split
    all_goals simp [respondError, respondJSON, StatusForbidden, StatusBadRequest,
      StatusInternalServerError, StatusOK, StatusNotFound]

/-- C1. In each of the four mutating handlers (campground `Update` and `Delete`,
comment `Update` and `Delete`), on a request whose id parameter parses, the
ownership read (an optional author id) decides the outcome: the handler gets
past the check, that is answers something other than 403, if and only if the
author id read is present and equal to the acting identity; the answer is 403
whenever the store holds another author for the id, no author, or no such row;
and it is never 404. -/
theorem ownership_check_decides (h : Pool) (now : Nat)
    (r₁ : Request UpdateCampgroundRequest) (r₂ : Request Unit)
    (r₃ : Request UpdateCommentRequest) (r₄ : Request Unit) (id₁ id₂ id₃ id₄ : Int)
    (h₁ : strconv.Atoi (getOrEmpty r₁.urlParams "id") = (id₁, none))
    (h₂ : strconv.Atoi (getOrEmpty r₂.urlParams "id") = (id₂, none))
    (h₃ : strconv.Atoi (getOrEmpty r₃.urlParams "id") = (id₃, none))
    (h₄ : strconv.Atoi (getOrEmpty r₄.urlParams "id") = (id₄, none)) :
    OwnershipGated (CampgroundHandler.Update h now r₁)
      (h.scanAuthor ⟨Sql.campgroundAuthor, [SqlArg.int id₁]⟩)
      (h.store.selectAuthor ⟨Sql.campgroundAuthor, [SqlArg.int id₁]⟩) (GetUserID r₁) ∧
    OwnershipGated (CampgroundHandler.Delete h r₂)
      (h.scanAuthor ⟨Sql.campgroundAuthor, [SqlArg.int id₂]⟩)
      (h.store.selectAuthor ⟨Sql.campgroundAuthor, [SqlArg.int id₂]⟩) (GetUserID r₂) ∧
    OwnershipGated (CommentHandler.Update h now r₃)
      (h.scanAuthor ⟨Sql.commentAuthor, [SqlArg.int id₃]⟩)
      (h.store.selectAuthor ⟨Sql.commentAuthor, [SqlArg.int id₃]⟩) (GetUserID r₃) ∧
    OwnershipGated (CommentHandler.Delete h r₄)
      (h.scanAuthor ⟨Sql.commentAuthor, [SqlArg.int id₄]⟩)
      (h.store.selectAuthor ⟨Sql.commentAuthor, [SqlArg.int id₄]⟩) (GetUserID r₄) :=
  ⟨campground_update_gated h now r₁ id₁ h₁, campground_delete_gated h r₂ id₂ h₂,
    comment_update_gated h now r₃ id₃ h₃, comment_delete_gated h r₄ id₄ h₄⟩

/-- Witness of C1: on the sample store, `bob` asks to change the campground 7
and the comment 3 of `alice`, and to delete the missing campground 8 and the
missing comment 9: all four answers are 403. -/
theorem ownership_check_decides_witness :
    (CampgroundHandler.Update samplePool 0 (sampleRequest "7" "bob" none)).resp.status
        = StatusForbidden ∧
    (CampgroundHandler.Delete samplePool (sampleRequest "8" "bob" none)).resp.status
        = StatusForbidden ∧
    (CommentHandler.Update samplePool 0 (sampleRequest "3" "bob" (some ⟨"Hi"⟩))).resp.status
        = StatusForbidden ∧
    (CommentHandler.Delete samplePool (sampleRequest "9" "alice" none)).resp.status
        = StatusForbidden := by
  have key := ownership_check_decides samplePool 0 (sampleRequest "7" "bob" none)
    (sampleRequest "8" "bob" none) (sampleRequest "3" "bob" (some ⟨"Hi"⟩))
    (sampleRequest "9" "alice" none) 7 8 3 9 (by rfl) (by rfl) (by rfl) (by rfl)
  exact ⟨key.1.2.1 (by decide), key.2.1.2.1 (by decide), key.2.2.1.2.1 (by decide),
    key.2.2.2.2.1 (by decide)⟩

theorem campground_update_guarded (h : Pool) (now : Nat) (r : Request UpdateCampgroundRequest) :
    MutationGuarded h (CampgroundHandler.Update h now r) (getOrEmpty r.urlParams "id")
      Sql.campgroundAuthor (GetUserID r) := by
  unfold MutationGuarded CampgroundHandler.Update
  simp only [nil_or_ne_iff]
  constructor
  · intro hno
    repeat' split
    all_goals first
      | rfl
      | (exfalso; apply hno; exact ⟨_, ‹_›, scanAuthor_eq_some (not_not.mp ‹_›)⟩)
  · repeat' split
    all_goals simp_all [Stmt.isMutation, Stmt.guard]

theorem campground_delete_guarded (h : Pool) (r : Request Unit) :
    MutationGuarded h (CampgroundHandler.Delete h r) (getOrEmpty r.urlParams "id")
      Sql.campgroundAuthor (GetUserID r) := by
  unfold MutationGuarded CampgroundHandler.Delete
  simp only [nil_or_ne_iff]
  constructor
  · intro hno
    repeat' split
    all_goals first
      | rfl
      | (exfalso; apply hno; exact ⟨_, ‹_›, scanAuthor_eq_some (not_not.mp ‹_›)⟩)
  · repeat' split
    all_goals simp_all [Stmt.isMutation, Stmt.guard]

theorem comment_update_guarded (h : Pool) (now : Nat) (r : Request UpdateCommentRequest) :
    MutationGuarded h (CommentHandler.Update h now r) (getOrEmpty r.urlParams "id")
      Sql.commentAuthor (GetUserID r) := by
  unfold MutationGuarded CommentHandler.Update
  simp only [nil_or_ne_iff]
  constructor
  · intro hno
    repeat' split
    all_goals first
      | rfl
      | (exfalso; apply hno; exact ⟨_, ‹_›, scanAuthor_eq_some (not_not.mp ‹_›)⟩)
  · repeat' split
    all_goals simp_all [Stmt.isMutation, Stmt.guard]

theorem comment_delete_guarded (h : Pool) (r : Request Unit) :
    MutationGuarded h (CommentHandler.Delete h r) (getOrEmpty r.urlParams "id")
      Sql.commentAuthor (GetUserID r) := by
  unfold MutationGuarded CommentHandler.Delete
  simp only [nil_or_ne_iff]
  constructor
  · intro hno
    repeat' split
    all_goals first
      | rfl
      | (exfalso; apply hno; exact ⟨_, ‹_›, scanAuthor_eq_some (not_not.mp ‹_›)⟩)
  · repeat' split
    all_goals simp_all [Stmt.isMutation, Stmt.guard]

/-- C2. Over an explicit store state, for every request to campground `Update`
or `Delete` or comment `Update` or `Delete`, whatever its body (absent fields,
malformed, invalid): when the acting identity is not the author stored for the
resource, the store after the handler is the store before it; and an `UPDATE`
or `DELETE` is sent only right after the ownership statement on the same table
and the same id has read the acting identity. -/
theorem mutation_only_after_ownership (h : Pool) (now : Nat)
    (r₁ : Request UpdateCampgroundRequest) (r₂ : Request Unit)
    (r₃ : Request UpdateCommentRequest) (r₄ : Request Unit) :
    MutationGuarded h (CampgroundHandler.Update h now r₁) (getOrEmpty r₁.urlParams "id")
      Sql.campgroundAuthor (GetUserID r₁) ∧
    MutationGuarded h (CampgroundHandler.Delete h r₂) (getOrEmpty r₂.urlParams "id")
      Sql.campgroundAuthor (GetUserID r₂) ∧
    MutationGuarded h (CommentHandler.Update h now r₃) (getOrEmpty r₃.urlParams "id")
      Sql.commentAuthor (GetUserID r₃) ∧
    MutationGuarded h (CommentHandler.Delete h r₄) (getOrEmpty r₄.urlParams "id")
      Sql.commentAuthor (GetUserID r₄) :=
  ⟨campground_update_guarded h now r₁, campground_delete_guarded h r₂,
    comment_update_guarded h now r₃, comment_delete_guarded h r₄⟩

/-- The owner's requests do reach the store: on the sample store `alice`
deletes her campground 7 and rewrites her comment 3, while the same requests
by `bob` leave the store as it was. -/
theorem owner_mutations_example :
    (CampgroundHandler.Delete samplePool (sampleRequest "7" "alice" none)).store.campgrounds
        = [] ∧
    (CommentHandler.Update samplePool 9 (sampleRequest "3" "alice" (some ⟨"Hi"⟩))).store.comments
        = [⟨3, "Hi", 7, some "alice", 6, 9⟩] ∧
    (CampgroundHandler.Delete samplePool (sampleRequest "7" "bob" none)).store = sampleStore ∧
    (CommentHandler.Update samplePool 9 (sampleRequest "3" "bob" (some ⟨"Hi"⟩))).store
        = sampleStore := by
  refine ⟨by decide, by decide, by decide, by decide⟩

/-! ## The authentication gate (C3, C4, C5) -/

theorem authHeader_error_status {β : Type} (r : Request β) (resp : Response)
    (h : RequireAuth.authHeader r = Except.error resp) : resp.status = StatusUnauthorized := by
  unfold RequireAuth.authHeader at h
  simp only at h
  repeat' split at h
  all_goals simp_all [httpError]
  all_goals (subst_vars; rfl)

theorem trim_error_status (a : String) (resp : Response)
    (h : RequireAuth.trim a = Except.error resp) : resp.status = StatusUnauthorized := by
  unfold RequireAuth.trim at h
  simp only at h
  repeat' split at h
  all_goals simp_all [httpError]
  all_goals (subst_vars; rfl)

theorem tokenString_error_status {β : Type} (r : Request β) (resp : Response)
    (h : RequireAuth.tokenString r = Except.error resp) : resp.status = StatusUnauthorized := by
  unfold RequireAuth.tokenString at h
  split at h
  · next resp' he =>
    cases h
    exact authHeader_error_status r _ he
  · exact trim_error_status _ _ h

theorem validate_status {β : Type} (parse : String → Option Token) (r : Request β)
    (ts : String) (resp : Response)
    (h : RequireAuth.validate parse r ts = AuthStep.reject resp) :
    resp.status = StatusUnauthorized := by
  unfold RequireAuth.validate at h
  repeat' split at h
  all_goals simp_all [httpError]
  all_goals (subst_vars; rfl)

theorem validate_next_iff {β : Type} (parse : String → Option Token) (r : Request β)
    (ts : String) (r' : Request β) :
    RequireAuth.validate parse r ts = AuthStep.next r' ↔
      ∃ tok m u, parse ts = some tok ∧ tok.Valid = true ∧ tok.Claims = Claims.mapClaims m ∧
        m.lookup "sub" = some (JsonValue.str u) ∧
        r' = r.WithValue UserIDKey (CtxValue.str u) := by
  unfold RequireAuth.validate
  constructor
  · intro h
    repeat' split at h
    all_goals simp_all
  · rintro ⟨tok, m, u, hp, hv, hc, hs, rfl⟩
    simp [hp, hv, hc, hs]

theorem run_out {β : Type} (parse : String → Option Token) (r : Request β) :
    (RequireAuth.run parse r).out =
      match RequireAuth.tokenString r with
      | Except.error resp => AuthStep.reject resp
      | Except.ok ts => RequireAuth.validate parse r ts := by
  unfold RequireAuth.run
  split <;> simp_all

theorem getUserID_withValue {β : Type} (r : Request β) (u : String) :
    GetUserID (r.WithValue UserIDKey (CtxValue.str u)) = u := by
  simp [GetUserID, Request.WithValue, List.lookup]

theorem run_next_iff {β : Type} (parse : String → Option Token) (r r' : Request β) :
    (RequireAuth.run parse r).out = AuthStep.next r' ↔
      ∃ u, Verified parse r u ∧ r' = r.WithValue UserIDKey (CtxValue.str u) := by
  rw [run_out]
  unfold Verified
  cases hts : RequireAuth.tokenString r with
  | error resp => simp
  | ok ts =>
    simp only [validate_next_iff]
    constructor
    · rintro ⟨tok, m, u, hp, hv, hc, hs, rfl⟩
      exact ⟨u, ⟨ts, tok, m, rfl, hp, hv, hc, hs⟩, rfl⟩
    · rintro ⟨u, ⟨ts', tok, m, hts', hp, hv, hc, hs⟩, rfl⟩
      cases hts'
      exact ⟨tok, m, u, hp, hv, hc, hs, rfl⟩

theorem run_reject_status {β : Type} (parse : String → Option Token) (r : Request β)
    (resp : Response) (h : (RequireAuth.run parse r).out = AuthStep.reject resp) :
    resp.status = StatusUnauthorized := by
  rw [run_out] at h
  split at h
  · next resp' he =>
    cases h
    exact tokenString_error_status r _ he
  · exact validate_status parse r _ resp h

/-- C3. For every request, `RequireAuth` calls the next handler if and only if
a token string was extracted, the token verifies and its `sub` claim is a
string; the request the next handler sees then carries exactly that `sub` as
`GetUserID`. In every other case the answer is a 401 written by `RequireAuth`
itself and the next handler is not called. A token that does not verify is
answered with the one message `Invalid token`; a verified token whose `sub` is
missing or not a string with the different message `Invalid user ID in token`. -/
theorem requireAuth_iff_verified {β : Type} (parse : String → Option Token) (r : Request β) :
    ((∃ r', (RequireAuth.run parse r).out = AuthStep.next r') ↔ ∃ u, Verified parse r u) ∧
    (∀ u, Verified parse r u →
      (RequireAuth.run parse r).out = AuthStep.next (r.WithValue UserIDKey (CtxValue.str u)) ∧
      GetUserID (r.WithValue UserIDKey (CtxValue.str u)) = u ∧
      ∀ (next : Pool → Request β → Result) (h : Pool),
        RequireAuth parse next h r = next h (r.WithValue UserIDKey (CtxValue.str u))) ∧
    ((¬ ∃ u, Verified parse r u) →
      ∃ resp, (RequireAuth.run parse r).out = AuthStep.reject resp ∧
        resp.status = StatusUnauthorized ∧
        ∀ (next : Pool → Request β → Result) (h : Pool),
          RequireAuth parse next h r = ⟨resp, h.store, []⟩) ∧
    (∀ ts, RequireAuth.tokenString r = Except.ok ts →
      (parse ts = none ∨ ∃ tok, parse ts = some tok ∧ tok.Valid = false) →
      (RequireAuth.run parse r).out = AuthStep.reject invalidToken) ∧
    (∀ ts tok m, RequireAuth.tokenString r = Except.ok ts → parse ts = some tok →
      tok.Valid = true → tok.Claims = Claims.mapClaims m →
      (∀ u, m.lookup "sub" ≠ some (JsonValue.str u)) →
      (RequireAuth.run parse r).out = AuthStep.reject invalidUserID) ∧
    invalidUserID ≠ invalidToken := by
  refine ⟨?_, ?_, ?_, ?_, ?_, by decide⟩
  · constructor
    · rintro ⟨r', h⟩
      obtain ⟨u, hu, -⟩ := (run_next_iff parse r r').mp h
      exact ⟨u, hu⟩
    · rintro ⟨u, hu⟩
      exact ⟨_, (run_next_iff parse r _).mpr ⟨u, hu, rfl⟩⟩
  · intro u hu
    have h := (run_next_iff parse r _).mpr ⟨u, hu, rfl⟩
    refine ⟨h, getUserID_withValue r u, ?_⟩
    intro next p
    simp [RequireAuth, h]
  · intro hno
    cases hout : (RequireAuth.run parse r).out with
    | next r' =>
      obtain ⟨u, hu, -⟩ := (run_next_iff parse r r').mp hout
      exact absurd ⟨u, hu⟩ hno
    | reject resp =>
      refine ⟨resp, rfl, run_reject_status parse r resp hout, ?_⟩
      intro next p
      simp [RequireAuth, hout]
  · intro ts hts hp
    rw [run_out, hts]
    unfold RequireAuth.validate
    rcases hp with hp | ⟨tok, hp, hv⟩
    · simp [hp, invalidToken]
    · simp [hp, hv, invalidToken]
  · intro ts tok m hts hp hv hc hs
    rw [run_out, hts]
    unfold RequireAuth.validate
    cases hl : m.lookup "sub" with
    | none => simp [hp, hv, hc, hl, invalidUserID]
    | some v =>
      cases v with
      | str u => exact absurd hl (hs u)
      | num n => simp [hp, hv, hc, hl, invalidUserID]
      | other => simp [hp, hv, hc, hl, invalidUserID]

theorem hasPrefix_iff (s pre : String) :
    strings.HasPrefix s pre = true ↔ ∃ t : String, s = pre ++ t := by
  unfold strings.HasPrefix
  rw [List.isPrefixOf_iff_prefix]
  constructor
  · rintro ⟨t, ht⟩
    refine ⟨String.mk t, ?_⟩
    apply String.ext
    simp [String.data_append, ht]
  · rintro ⟨t, rfl⟩
    exact ⟨t.data, by simp [String.data_append]⟩

theorem trimPrefix_append (pre t : String) : strings.TrimPrefix (pre ++ t) pre = t := by
  have h : strings.HasPrefix (pre ++ t) pre = true := (hasPrefix_iff _ _).mpr ⟨t, rfl⟩
  unfold strings.TrimPrefix
  rw [if_pos h]
  apply String.ext
  simp [String.data_append]

theorem append_ne_self (pre t : String) (hpre : pre ≠ "") : t ≠ pre ++ t := by
  intro h
  have hl := congrArg String.length h
  rw [String.length_append] at hl
  have : pre.length ≠ 0 := by
    intro h0
    apply hpre
    apply String.ext
    exact List.length_eq_zero.mp h0
  omega

theorem trimPrefix_eq_self_iff (s pre : String) (hpre : pre ≠ "") :
    strings.TrimPrefix s pre = s ↔ strings.HasPrefix s pre = false := by
  constructor
  · intro h
    by_contra hc
    rw [Bool.not_eq_false] at hc
    obtain ⟨t, rfl⟩ := (hasPrefix_iff _ _).mp hc
    rw [trimPrefix_append] at h
    exact append_ne_self pre t hpre h
  · intro h
    unfold strings.TrimPrefix
    simp [h]

theorem trimPrefix_of_hasPrefix (s pre : String) (h : strings.HasPrefix s pre = true) :
    strings.TrimPrefix s pre = String.mk (s.data.drop pre.data.length) := by
  unfold strings.TrimPrefix
  rw [if_pos h]

theorem trim_eq (a : String) :
    RequireAuth.trim a =
      if strings.HasPrefix a "Bearer " = true then Except.ok (String.mk (a.data.drop 7))
      else Except.error invalidTokenFormat := by
  unfold RequireAuth.trim
  simp only [trimPrefix_eq_self_iff a "Bearer " (by decide)]
  by_cases h : strings.HasPrefix a "Bearer " = true
  · simp [h, trimPrefix_of_hasPrefix a "Bearer " h]
  · simp [h, invalidTokenFormat]
theorem validate_verdict {β : Type} (parse : String → Option Token) (r r' : Request β)
    (ts : String) :
    (RequireAuth.validate parse r ts).verdict = (RequireAuth.validate parse r' ts).verdict := by
  unfold RequireAuth.validate
  repeat' split
  all_goals simp_all [AuthStep.verdict, getUserID_withValue]

theorem authHeader_of_header {β : Type} (r : Request β)
    (h : getOrEmpty r.header "Authorization" ≠ "") :
    RequireAuth.authHeader r = Except.ok (getOrEmpty r.header "Authorization") := by
  unfold RequireAuth.authHeader
  simp [h]

theorem run_of_header {β : Type} (parse : String → Option Token) (r : Request β)
    (h : getOrEmpty r.header "Authorization" ≠ "") :
    RequireAuth.run parse r =
      match RequireAuth.trim (getOrEmpty r.header "Authorization") with
      | Except.error resp => ⟨[], AuthStep.reject resp⟩
      | Except.ok ts => ⟨[ts], RequireAuth.validate parse r ts⟩ := by
  unfold RequireAuth.run RequireAuth.tokenString
  rw [authHeader_of_header r h]

/-- C4. Where the token is taken from. When the `Authorization` header is not
empty the cookies are not consulted: two requests that differ only in their
cookies hand the same strings to verification and end alike (same rejection,
or same attached identity). When the header is empty and a `token` cookie is
present, the cookie value is the token string that is verified. When there is
neither, the request is rejected with 401 and nothing is verified. -/
theorem token_location_precedence {β : Type} (parse : String → Option Token) (r : Request β) :
    (getOrEmpty r.header "Authorization" ≠ "" → ∀ cookies' : List (String × String),
      (RequireAuth.run parse { r with cookies := cookies' }).parsed
          = (RequireAuth.run parse r).parsed ∧
      (RequireAuth.run parse { r with cookies := cookies' }).out.verdict
          = (RequireAuth.run parse r).out.verdict) ∧
    (getOrEmpty r.header "Authorization" = "" → ∀ v, r.Cookie "token" = some v →
      RequireAuth.tokenString r = Except.ok v ∧
      RequireAuth.run parse r = ⟨[v], RequireAuth.validate parse r v⟩) ∧
    (getOrEmpty r.header "Authorization" = "" → r.Cookie "token" = none →
      RequireAuth.run parse r = ⟨[], AuthStep.reject authenticationRequired⟩ ∧
      authenticationRequired.status = StatusUnauthorized) := by
  refine ⟨?_, ?_, ?_⟩
  · intro h cookies'
    have h' : getOrEmpty ({ r with cookies := cookies' } : Request β).header "Authorization" ≠ ""
        := h
    rw [run_of_header parse _ h', run_of_header parse r h]
    show (match RequireAuth.trim (getOrEmpty r.header "Authorization") with
        | Except.error resp => (⟨[], AuthStep.reject resp⟩ : AuthRun β)
        | Except.ok ts =>
          ⟨[ts], RequireAuth.validate parse { r with cookies := cookies' } ts⟩).parsed = _ ∧ _
    cases RequireAuth.trim (getOrEmpty r.header "Authorization") with
    | error resp => exact ⟨rfl, rfl⟩
    | ok ts => exact ⟨rfl, validate_verdict parse _ r ts⟩
  · intro h v hv
    have hts : RequireAuth.tokenString r = Except.ok v := by
      unfold RequireAuth.tokenString RequireAuth.authHeader
      simp only [h, hv, if_true]
      unfold RequireAuth.trim
      simp only [trimPrefix_append]
      rw [if_neg (append_ne_self "Bearer " v (by decide))]
    refine ⟨hts, ?_⟩
    unfold RequireAuth.run
    rw [hts]
  · intro h hv
    refine ⟨?_, rfl⟩
    unfold RequireAuth.run RequireAuth.tokenString RequireAuth.authHeader
    simp only [h, hv, if_true]
    rfl

/-- C5. For a non-empty `Authorization` header `a`: `TrimPrefix(a, "Bearer ")`
is `a` exactly when `a` does not start with `Bearer `, and exactly then
`RequireAuth` writes the 401 `Invalid token format` and hands nothing to
verification; when `a` starts with `Bearer `, the one string handed to
verification is `a` without its first 7 characters. -/
theorem bearer_scheme_check {β : Type} (parse : String → Option Token) (r : Request β)
    (a : String) (ha : getOrEmpty r.header "Authorization" = a) (hne : a ≠ "") :
    (strings.HasPrefix a "Bearer " = true ↔ ∃ t : String, a = "Bearer " ++ t) ∧
    (strings.TrimPrefix a "Bearer " = a ↔ strings.HasPrefix a "Bearer " = false) ∧
    (RequireAuth.run parse r = ⟨[], AuthStep.reject invalidTokenFormat⟩
        ↔ strings.HasPrefix a "Bearer " = false) ∧
    ((RequireAuth.run parse r).parsed = [] ↔ strings.HasPrefix a "Bearer " = false) ∧
    invalidTokenFormat.status = StatusUnauthorized ∧
    (strings.HasPrefix a "Bearer " = true →
      RequireAuth.run parse r =
        ⟨[String.mk (a.data.drop 7)], RequireAuth.validate parse r (String.mk (a.data.drop 7))⟩)
    := by
  subst ha
  have hrun := run_of_header parse r hne
  rw [trim_eq] at hrun
  refine ⟨hasPrefix_iff _ _, trimPrefix_eq_self_iff _ _ (by decide), ?_, ?_, rfl, ?_⟩
  · by_cases hp : strings.HasPrefix (getOrEmpty r.header "Authorization") "Bearer " = true
    · simp only [hp, if_true] at hrun
      simp [hrun, hp]
    · simp only [hp] at hrun
      simp [hrun, hp]
  · by_cases hp : strings.HasPrefix (getOrEmpty r.header "Authorization") "Bearer " = true
    · simp only [hp, if_true] at hrun
      simp [hrun, hp]
    · simp only [hp] at hrun
      simp [hrun, hp]
  · intro hp
    simp only [hp, if_true] at hrun
    exact hrun

/-- Witness of C5: the header `Bearer Bearer x` loses one `Bearer ` only, the
header `Bearer ` hands the empty string to verification, and the header
`Basic x` is rejected unverified. -/
theorem bearer_scheme_check_witness :
    (RequireAuth.run (fun _ => none)
        ({ header := [("Authorization", "Bearer Bearer x")], cookies := [], query := [],
           urlParams := [], body := none, ctx := [] } : Request Unit)).parsed = ["Bearer x"] ∧
    (RequireAuth.run (fun _ => none)
        ({ header := [("Authorization", "Bearer ")], cookies := [], query := [],
           urlParams := [], body := none, ctx := [] } : Request Unit)).parsed = [""] ∧
    (RequireAuth.run (fun _ => none)
        ({ header := [("Authorization", "Basic x")], cookies := [], query := [],
           urlParams := [], body := none, ctx := [] } : Request Unit)).parsed = [] := by
  refine ⟨?_, ?_, ?_⟩
  · have h := (bearer_scheme_check (fun _ => none)
      ({ header := [("Authorization", "Bearer Bearer x")], cookies := [], query := [],
         urlParams := [], body := none, ctx := [] } : Request Unit)
      "Bearer Bearer x" (by decide) (by decide)).2.2.2.2.2 (by decide)
    rw [h]
    decide
  · have h := (bearer_scheme_check (fun _ => none)
      ({ header := [("Authorization", "Bearer ")], cookies := [], query := [],
         urlParams := [], body := none, ctx := [] } : Request Unit)
      "Bearer " (by decide) (by decide)).2.2.2.2.2 (by decide)
    rw [h]
    decide
  · exact (bearer_scheme_check (fun _ => none)
      ({ header := [("Authorization", "Basic x")], cookies := [], query := [],
         urlParams := [], body := none, ctx := [] } : Request Unit)
      "Basic x" (by decide) (by decide)).2.2.2.1.mpr (by decide)

/-! ## Token round trip (C6) -/

theorem toyReadUnary_replicate (n : Nat) (rest : List Char) :
    toyReadUnary (List.replicate n 'i' ++ '.' :: rest) = some (n, rest) := by
  induction n with
  | zero => simp [toyReadUnary]
  | succ n ih => simp [List.replicate_succ, toyReadUnary, ih]

theorem toyJwt_lawful : toyJwt.Lawful := by
  intro sub exp key now _ _
  have hs : toySign (tokenClaims sub exp) key =
      String.mk ((if exp < 0 then '-' else '+') ::
        (List.replicate exp.natAbs 'i' ++ '.' ::
          (List.replicate key.data.length 'i' ++ '.' :: (key.data ++ sub.data)))) := by
    simp [toySign, tokenClaims, List.lookup]
  show toyParse (toySign (tokenClaims sub exp) key) key now = _
  rw [hs]
  unfold toyParse
  simp only [toyReadUnary_replicate, List.take_left', List.drop_left', if_true]
  have hexp : (if (if exp < 0 then '-' else '+') = '-' then -((exp.natAbs : Nat) : Int)
      else ((exp.natAbs : Nat) : Int)) = exp := by
    by_cases h : exp < 0
    · simp only [h, if_true]
      omega
    · have hc : ¬ ('+' = '-') := by decide
      simp only [h, if_false, hc]
      omega
  simp only [hexp]

theorem tokenString_bearer {β : Type} (r : Request β) (tok : String)
    (h : getOrEmpty r.header "Authorization" = "Bearer " ++ tok) :
    RequireAuth.tokenString r = Except.ok tok := by
  have hne : getOrEmpty r.header "Authorization" ≠ "" := by
    rw [h]
    intro hc
    have hl := congrArg String.length hc
    rw [String.length_append] at hl
    have h7 : "Bearer ".length = 7 := by decide
    have h0 : "".length = 0 := by decide
    omega
  unfold RequireAuth.tokenString
  rw [authHeader_of_header r hne, h]
  unfold RequireAuth.trim
  simp only [trimPrefix_append]
  rw [if_neg (append_ne_self "Bearer " tok (by decide))]

theorem generateToken_exp (jwt : Jwt) (secret u : String) (t : Nat) :
    generateToken jwt secret t u = jwt.SignedString (tokenClaims u (Unix t + 604800)) secret := by
  unfold generateToken Unix Hour
  congr 2
  have : (t + 7 * 24 * (3600 * 1000000000)) / 1000000000 = t / 1000000000 + 604800 := by
    omega
  rw [this]
  push_cast
  rfl

theorem bearerRequest_tokenString (token : String) :
    RequireAuth.tokenString (bearerRequest token) = Except.ok token :=
  tokenString_bearer _ token (by simp [bearerRequest, getOrEmpty, List.lookup])

theorem verify_issued {β : Type} (jwt : Jwt) (hlaw : jwt.Lawful) (secret u : String)
    (t now : Nat) (r : Request β)
    (hr : RequireAuth.tokenString r = Except.ok (generateToken jwt secret t u))
    (hbound : Unix t + 604800 < 9007199254740992) :
    (RequireAuth.run (fun ts => jwt.Parse ts secret now) r).out =
      if (now : Int) < (Unix t + 604800) * 1000000000 then
        AuthStep.next (r.WithValue UserIDKey (CtxValue.str u))
      else AuthStep.reject invalidToken := by
  have hpos : 0 < Unix t + 604800 := by
    unfold Unix
    omega
  have hparse : jwt.Parse (generateToken jwt secret t u) secret now =
      if (now : Int) < (Unix t + 604800) * 1000000000 then
        some ⟨Claims.mapClaims (tokenClaims u (Unix t + 604800)), true⟩
      else none := by
    rw [generateToken_exp]
    exact hlaw u (Unix t + 604800) secret now hpos hbound
  have hsub : (tokenClaims u (Unix t + 604800)).lookup "sub" = some (JsonValue.str u) := by
    simp [tokenClaims, List.lookup]
  by_cases hlt : (now : Int) < (Unix t + 604800) * 1000000000
  · rw [if_pos hlt]
    apply (run_next_iff _ r _).mpr
    refine ⟨u, ⟨_, ⟨Claims.mapClaims (tokenClaims u (Unix t + 604800)), true⟩, _, hr, ?_, rfl,
      rfl, hsub⟩, rfl⟩
    show jwt.Parse (generateToken jwt secret t u) secret now = _
    rw [hparse, if_pos hlt]
  · rw [if_neg hlt, run_out, hr]
    unfold RequireAuth.validate
    simp only [hparse, if_neg hlt]
    rfl

/-- C6, amended. Token round trip and lifetime, for a `jwt` package that keeps
its promise `Jwt.Lawful`, the same secret at issue and at verification, and an
issuance time `t` whose `exp` stays below `2^53`. A token produced by
`generateToken` for `u` when the clock reads `t` carries `sub = u` and
`exp = Unix t + 604800`, `Unix t` being `t` cut down to whole seconds. A
request bearing it passes `RequireAuth` with identity `u` exactly while the
clock is before the instant `exp`, and is rejected with `Invalid token` from
that instant on. So it is accepted at issuance and at every instant up to one
second before `t` plus 7 days, and, when `t` is a whole number of seconds, at
every instant before `t` plus 7 days; it is rejected from `t` plus 7 days on,
so one second after it. -/
theorem token_round_trip {β : Type} (jwt : Jwt) (hlaw : jwt.Lawful) (secret u : String)
    (t now : Nat) (r : Request β)
    (hr : RequireAuth.tokenString r = Except.ok (generateToken jwt secret t u))
    (hbound : Unix t + 604800 < 9007199254740992) :
    generateToken jwt secret t u
        = jwt.SignedString (tokenClaims u (Unix t + 604800)) secret ∧
    (tokenClaims u (Unix t + 604800)).lookup "sub" = some (JsonValue.str u) ∧
    (tokenClaims u (Unix t + 604800)).lookup "exp" = some (JsonValue.num (Unix t + 604800)) ∧
    (((now : Int) < (Unix t + 604800) * 1000000000) →
      (RequireAuth.run (fun ts => jwt.Parse ts secret now) r).out
          = AuthStep.next (r.WithValue UserIDKey (CtxValue.str u)) ∧
      GetUserID (r.WithValue UserIDKey (CtxValue.str u)) = u) ∧
    ((¬ ((now : Int) < (Unix t + 604800) * 1000000000)) →
      (RequireAuth.run (fun ts => jwt.Parse ts secret now) r).out
          = AuthStep.reject invalidToken) ∧
    ((now = t ∨ now + Second ≤ t + 7 * 24 * Hour ∨
        (t % Second = 0 ∧ now < t + 7 * 24 * Hour)) →
      (now : Int) < (Unix t + 604800) * 1000000000) ∧
    (t + 7 * 24 * Hour ≤ now → ¬ ((now : Int) < (Unix t + 604800) * 1000000000)) := by
  have hout := verify_issued jwt hlaw secret u t now r hr hbound
  refine ⟨generateToken_exp jwt secret u t, by simp [tokenClaims, List.lookup],
    by simp [tokenClaims, List.lookup], ?_, ?_, ?_, ?_⟩
  · intro hlt
    rw [hout, if_pos hlt]
    exact ⟨rfl, getUserID_withValue r u⟩
  · intro hge
    rw [hout, if_neg hge]
  · unfold Unix Second Hour
    intro h
    have key : ((t / 1000000000 : Nat) : Int) * 1000000000 + 1000000000 > (t : Int) := by
      have := Nat.lt_div_mul_add (a := t) (b := 1000000000) (by norm_num)
      omega
    rcases h with h | h | ⟨h0, h⟩
    · subst h
      omega
    · omega
    · have : t / 1000000000 * 1000000000 = t := Nat.div_mul_cancel (Nat.dvd_of_mod_eq_zero h0)
      omega
  · unfold Unix Hour
    intro h
    have key : ((t / 1000000000 : Nat) : Int) * 1000000000 ≤ (t : Int) := by
      have := Nat.div_mul_le_self t 1000000000
      omega
    omega

/-- Witness of C6 with the stand-in package: a token issued for `alice` half a
second after the second 1700000000 is accepted at once and one second before
issuance plus 7 days, and rejected one second after issuance plus 7 days. -/
theorem token_round_trip_witness :
    (RequireAuth.run (fun ts => toyJwt.Parse ts "s3cret" 1700000000500000000)
        (bearerRequest (generateToken toyJwt "s3cret" 1700000000500000000 "alice"))).out.verdict
      = Except.ok "alice" ∧
    (RequireAuth.run (fun ts => toyJwt.Parse ts "s3cret" 1700604799500000000)
        (bearerRequest (generateToken toyJwt "s3cret" 1700000000500000000 "alice"))).out.verdict
      = Except.ok "alice" ∧
    (RequireAuth.run (fun ts => toyJwt.Parse ts "s3cret" 1700604801500000000)
        (bearerRequest (generateToken toyJwt "s3cret" 1700000000500000000 "alice"))).out
      = AuthStep.reject invalidToken := by
  have h1 := token_round_trip toyJwt toyJwt_lawful "s3cret" "alice" 1700000000500000000
    1700000000500000000 (bearerRequest (generateToken toyJwt "s3cret" 1700000000500000000 "alice"))
    (bearerRequest_tokenString _) (by decide)
  have h2 := token_round_trip toyJwt toyJwt_lawful "s3cret" "alice" 1700000000500000000
    1700604799500000000 (bearerRequest (generateToken toyJwt "s3cret" 1700000000500000000 "alice"))
    (bearerRequest_tokenString _) (by decide)
  have h3 := token_round_trip toyJwt toyJwt_lawful "s3cret" "alice" 1700000000500000000
    1700604801500000000 (bearerRequest (generateToken toyJwt "s3cret" 1700000000500000000 "alice"))
    (bearerRequest_tokenString _) (by decide)
  refine ⟨?_, ?_, ?_⟩
  · rw [(h1.2.2.2.1 (h1.2.2.2.2.2.1 (Or.inl rfl))).1]
    exact congrArg Except.ok (getUserID_withValue _ _)
  · rw [(h2.2.2.2.1 (h2.2.2.2.2.2.1 (Or.inr (Or.inl (by norm_num [Second, Hour]))))).1]
    exact congrArg Except.ok (getUserID_withValue _ _)
  · exact h3.2.2.2.2.1 (h3.2.2.2.2.2.2 (by norm_num [Hour]))

/-- Counterexample to C6 as stated. A token issued half a second after the
second 1700000000 carries `exp = 1700604800`, which is not the issuance time
plus 604800 seconds; and a quarter of a second past that `exp`, which is still
before the issuance time plus 7 days, every package that keeps `Jwt.Lawful`,
the stand-in among them, has `RequireAuth` reject the request. -/
theorem token_round_trip_subsecond :
    (1700604800250000000 : Nat) < 1700000000500000000 + 7 * 24 * Hour ∧
    Unix 1700000000500000000 + 604800 = 1700604800 ∧
    (1700604800 : Int) * 1000000000 ≠ ((1700000000500000000 + 7 * 24 * Hour : Nat) : Int) ∧
    toyJwt.Lawful ∧
    (∀ (jwt : Jwt), jwt.Lawful → ∀ (secret u : String),
      generateToken jwt secret 1700000000500000000 u
        = jwt.SignedString (tokenClaims u 1700604800) secret ∧
      (RequireAuth.run (fun ts => jwt.Parse ts secret 1700604800250000000)
          (bearerRequest (generateToken jwt secret 1700000000500000000 u))).out
        = AuthStep.reject invalidToken) := by
  refine ⟨by decide, by decide, by decide, toyJwt_lawful, ?_⟩
  intro jwt hlaw secret u
  refine ⟨generateToken_exp jwt secret u 1700000000500000000, ?_⟩
  rw [verify_issued jwt hlaw secret u 1700000000500000000 1700604800250000000 _
    (bearerRequest_tokenString _) (by decide)]
  rw [if_neg (by decide)]

/-! ## Pagination (C7, C8, C9) -/

theorem wrapInt_of_range (x : Int) (h₁ : minInt ≤ x) (h₂ : x ≤ maxInt) : wrapInt x = x := by
  unfold wrapInt
  unfold minInt at h₁
  unfold maxInt at h₂
  omega

theorem totalPages_eq (total : Int) (h0 : 0 ≤ total) (hb : total ≤ maxInt - 11) :
    intDiv (intSub (intAdd total 12) 1) 12 = (total + 11) / 12 := by
  unfold maxInt at hb
  have e2 : intSub (intAdd total 12) 1 = total + 11 := by
    unfold intSub intAdd wrapInt
    omega
  have e3 : Int.tdiv (total + 11) 12 = (total + 11) / 12 :=
    Int.tdiv_eq_ediv (by omega) (by norm_num)
  unfold intDiv
  rw [e2, e3]
  exact wrapInt_of_range _ (by unfold minInt; omega) (by unfold maxInt; omega)

theorem ceil_div_twelve (total : Int) : ⌈(total : ℚ) / 12⌉ = (total + 11) / 12 := by
  rw [Int.ceil_eq_iff]
  have h1 : 12 * ((total + 11) / 12) ≤ total + 11 := Int.mul_ediv_self_le (by norm_num)
  have h2 : total + 11 < 12 * ((total + 11) / 12) + 12 := Int.lt_mul_ediv_self_add (by norm_num)
  constructor
  · rw [lt_div_iff₀ (by norm_num)]
    have : (((total + 11) / 12 : Int) : ℚ) * 12 < (total : ℚ) + 12 := by
      exact_mod_cast (by omega : ((total + 11) / 12) * 12 < total + 12)
    linarith
  · rw [div_le_iff₀ (by norm_num)]
    exact_mod_cast (by omega : total ≤ ((total + 11) / 12) * 12)

/-- C7, amended. The pagination block computed by `List` for a count `total`
with `0 ≤ total ≤ maxInt - 11` and a page `page ≥ 1`, the limit being 12:
`totalPages` is `(total + 11) / 12`, which is the ceiling of `total / 12`, and
`hasMore` is true exactly when `page < totalPages`. For `total = 25` this gives
3 pages, `hasMore` on page 1 and not on page 3; for `total = 0` it gives 0 pages
and no `hasMore` on any page. A 200 answer of `List` carries this block for the
count read from the pool. -/
theorem pagination_metadata (total page : Int) (h0 : 0 ≤ total) (hb : total ≤ maxInt - 11)
    (hp : 1 ≤ page) :
    (List.pagination page 12 total).TotalPages = (total + 11) / 12 ∧
    (List.pagination page 12 total).TotalPages = ⌈(total : ℚ) / 12⌉ ∧
    ((List.pagination page 12 total).HasMore = true
        ↔ page < (List.pagination page 12 total).TotalPages) ∧
    (List.pagination page 12 total).Page = page ∧
    (List.pagination page 12 total).Limit = 12 ∧
    (List.pagination page 12 total).Total = total ∧
    (total = 25 → (List.pagination page 12 total).TotalPages = 3 ∧
      (page = 1 → (List.pagination page 12 total).HasMore = true) ∧
      (page = 3 → (List.pagination page 12 total).HasMore = false)) ∧
    (total = 0 → (List.pagination page 12 total).TotalPages = 0 ∧
      (List.pagination page 12 total).HasMore = false) ∧
    (∀ (h : Pool) (r : Request Unit), (CampgroundHandler.List h r).resp.status = StatusOK →
      ∃ data, (CampgroundHandler.List h r).resp.body = Body.paginated data
        (List.pagination (List.page r) 12
          (h.scanCount (List.countStmt (getOrEmpty r.query "search"))))) := by
  have htp : (List.pagination page 12 total).TotalPages = (total + 11) / 12 :=
    totalPages_eq total h0 hb
  have hhm : (List.pagination page 12 total).HasMore = true
      ↔ page < (List.pagination page 12 total).TotalPages := by
    simp [List.pagination]
  refine ⟨htp, ?_, hhm, rfl, rfl, rfl, ?_, ?_, ?_⟩
  · rw [htp, ceil_div_twelve]
  · intro h25
    subst h25
    have h3 : (List.pagination page 12 25).TotalPages = 3 := by rw [htp]; norm_num
    refine ⟨h3, ?_, ?_⟩
    · intro h1
      rw [hhm, h3, h1]
      norm_num
    · intro h1
      rw [← Bool.not_eq_true, hhm, h3, h1]
      norm_num
  · intro hz
    subst hz
    have h0' : (List.pagination page 12 0).TotalPages = 0 := by rw [htp]; norm_num
    refine ⟨h0', ?_⟩
    rw [← Bool.not_eq_true, hhm, h0']
    omega
  · intro h r hs
    unfold CampgroundHandler.List at hs ⊢
    simp only at hs ⊢
    split
    · rename_i hq
      rw [hq] at hs
      simp [respondError, respondJSON, StatusOK, StatusInternalServerError] at hs
    · exact ⟨_, rfl⟩

/-- Witness of C7: 25 campgrounds seen from page 1. -/
theorem pagination_metadata_witness :
    List.pagination 1 12 25 = ⟨1, 12, 25, 3, true⟩ ∧
    (List.pagination 1 12 25).TotalPages = ⌈((25 : Int) : ℚ) / 12⌉ := by
  have h := pagination_metadata 25 1 (by decide) (by decide) (by decide)
  exact ⟨by decide, h.2.1⟩

/-- Counterexample to C7 as stated: for the count `total = maxInt` the sum
`total + limit` wraps around, `totalPages` comes out negative and is not the
ceiling of `total / 12`, and `hasMore` is false on page 1. -/
theorem pagination_metadata_overflow :
    0 ≤ maxInt ∧
    (List.pagination 1 12 maxInt).TotalPages = -768614336404564649 ∧
    ⌈((maxInt : Int) : ℚ) / 12⌉ = 768614336404564651 ∧
    (List.pagination 1 12 maxInt).TotalPages ≠ ⌈((maxInt : Int) : ℚ) / 12⌉ ∧
    (List.pagination 1 12 maxInt).HasMore = false := by
  have hc : ⌈((maxInt : Int) : ℚ) / 12⌉ = 768614336404564651 := by
    rw [ceil_div_twelve]
    decide
  have ht : (List.pagination 1 12 maxInt).TotalPages = -768614336404564649 := by decide
  refine ⟨by decide, ht, hc, ?_, by decide⟩
  rw [ht, hc]
  decide

theorem parseInt_errSyntax (s : List Char)
    (h : (strconv.ParseInt s).2 = some NumError.errSyntax) : (strconv.ParseInt s).1 = 0 := by
  cases s with
  | nil => rfl
  | cons c cs =>
    unfold strconv.ParseInt at h ⊢
    simp only at h ⊢
    generalize strconv.ParseUint (if (c == '+' || c == '-') = true then cs else c :: cs) = res
      at h ⊢
    rcases res with ⟨un, _ | _ | _⟩
    all_goals simp only at h ⊢
    all_goals (repeat' split at h)
    all_goals simp_all

theorem parseInt_errRange (s : List Char)
    (h : (strconv.ParseInt s).2 = some NumError.errRange) :
    (strconv.ParseInt s).1 = if s.head? = some '-' then minInt else maxInt := by
  cases s with
  | nil => simp [strconv.ParseInt] at h
  | cons c cs =>
    unfold strconv.ParseInt at h ⊢
    simp only at h ⊢
    generalize strconv.ParseUint (if (c == '+' || c == '-') = true then cs else c :: cs) = res
      at h ⊢
    rcases res with ⟨un, _ | _ | _⟩
    all_goals simp only at h ⊢
    all_goals (repeat' split at h)
    all_goals simp_all

theorem page_eq (r : Request Unit) :
    List.page r =
      if (strconv.Atoi (getOrEmpty r.query "page")).1 < 1 then 1
      else (strconv.Atoi (getOrEmpty r.query "page")).1 := rfl
theorem decimalFrom_ge (n : Nat) (ds : List Char) : n ≤ decimalFrom n ds := by
  induction ds generalizing n with
  | nil => exact Nat.le_refl _
  | cons c cs ih =>
    have := ih (n * 10 + (c.toNat - 48))
    simp only [decimalFrom, List.foldl_cons] at this ⊢
    omega

theorem parseUintLoop_eq (cs : List Char) (n : Nat) (hn : n ≤ maxUint64) :
    strconv.parseUintLoop cs n =
      if maxUint64 < decimalFrom n (cs.takeWhile Char.isDigit) then
        (maxUint64, some NumError.errRange)
      else if cs.takeWhile Char.isDigit = cs then
        (decimalFrom n (cs.takeWhile Char.isDigit), none)
      else (0, some NumError.errSyntax) := by
  induction cs generalizing n with
  | nil =>
    have : ¬ maxUint64 < n := by omega
    simp [strconv.parseUintLoop, decimalFrom, this]
  | cons c cs ih =>
    unfold strconv.parseUintLoop
    by_cases hd : c.isDigit = true
    · simp only [hd, if_true, List.takeWhile_cons_of_pos]
      have hstep : decimalFrom n (c :: cs.takeWhile Char.isDigit)
          = decimalFrom (n * 10 + (c.toNat - 48)) (cs.takeWhile Char.isDigit) := rfl
      have hge := decimalFrom_ge (n * 10 + (c.toNat - 48)) (cs.takeWhile Char.isDigit)
      rw [hstep]
      by_cases h1 : n ≥ maxUint64 / 10 + 1
      · have : maxUint64 < decimalFrom (n * 10 + (c.toNat - 48)) (cs.takeWhile Char.isDigit) := by
          unfold maxUint64 at h1 ⊢
          omega
        simp [h1, this]
      · by_cases h2 : n * 10 + (c.toNat - 48) > maxUint64
        · have : maxUint64 < decimalFrom (n * 10 + (c.toNat - 48))
              (cs.takeWhile Char.isDigit) := by omega
          simp [h1, h2, this]
        · simp only [h1, h2, if_false]
          rw [ih _ (by omega)]
          simp
    · have : ¬ maxUint64 < n := by omega
      simp [hd, decimalFrom, this]

theorem parseUint_eq (u : List Char) :
    strconv.ParseUint u =
      if u = [] then (0, some NumError.errSyntax)
      else if maxUint64 < decimalValue (u.takeWhile Char.isDigit) then
        (maxUint64, some NumError.errRange)
      else if u.takeWhile Char.isDigit = u then
        (decimalValue (u.takeWhile Char.isDigit), none)
      else (0, some NumError.errSyntax) := by
  cases u with
  | nil => rfl
  | cons c cs =>
    have h := parseUintLoop_eq (c :: cs) 0 (by unfold maxUint64; omega)
    simp only [strconv.ParseUint, h, decimalValue]
    rw [if_neg (List.cons_ne_nil c cs)]

theorem atoi_fst (s : String) : (strconv.Atoi s).1 = atoiValueOfText s := by
  unfold strconv.Atoi strconv.ParseInt atoiValueOfText leadingDigits
  cases hs : s.data with
  | nil =>
    have hu : unsignedPart s = [] := by simp [unsignedPart, hs]
    rw [if_pos hu]
  | cons c cs =>
    have hu : unsignedPart s = if (c == '+' || c == '-') = true then cs else c :: cs := by
      simp [unsignedPart, hs]
    have hh : (List.head? (c :: cs) = some '-') ↔ (c == '-') = true := by simp
    simp only [← hu, parseUint_eq, hh]
    by_cases h0 : unsignedPart s = []
    · simp only [if_pos h0]
    · rw [if_neg h0, if_neg h0]
      by_cases h1 : maxUint64 < decimalValue ((unsignedPart s).takeWhile Char.isDigit)
      · rw [if_pos h1, if_pos h1]
        cases hneg : (c == '-') <;> simp [maxUint64, maxInt, minInt]
      · rw [if_neg h1, if_neg h1]
        by_cases h2 : (unsignedPart s).takeWhile Char.isDigit = unsignedPart s
        · rw [if_pos h2, if_pos h2]
          cases hneg : (c == '-')
          · simp only [Bool.not_false, Bool.true_and, decide_eq_true_eq, Bool.false_and,
              Bool.false_eq_true, if_false, ge_iff_le]
            split <;> rfl
          · simp only [Bool.not_true, Bool.false_and, Bool.false_eq_true, if_false,
              Bool.true_and, decide_eq_true_eq, if_true, gt_iff_lt]
            split <;> rfl
        · rw [if_neg h2, if_neg h2]

theorem page_of_text (s : String) :
    (if (strconv.Atoi s).1 < 1 then 1 else (strconv.Atoi s).1) = pageOfText s := by
  rw [atoi_fst]
  have hv0 : unsignedPart s = [] → decimalValue (leadingDigits s) = 0 := by
    intro h
    simp [leadingDigits, h, decimalValue, decimalFrom]
  unfold atoiValueOfText pageOfText maxInt minInt maxUint64
  generalize decimalValue (leadingDigits s) = v at hv0 ⊢
  by_cases h0 : unsignedPart s = []
  · have := hv0 h0
    subst this
    simp [h0]
  · by_cases hneg : s.data.head? = some '-'
    · by_cases h1 : 18446744073709551615 < v
      · simp [h0, hneg, h1]
      · by_cases h2 : leadingDigits s = unsignedPart s
        · simp only [h0, hneg, h1, h2, if_true, if_false, ne_eq, not_true_eq_false, false_and]
          split_ifs <;> omega
        · simp [h0, hneg, h1, h2]
    · by_cases h1 : 18446744073709551615 < v
      · have h1' : 1 ≤ v := by omega
        simp only [h0, hneg, h1, h1', if_true, if_false, ne_eq, not_false_eq_true, true_and,
          or_true]
        split_ifs <;> omega
      · by_cases h2 : leadingDigits s = unsignedPart s
        · simp only [h0, hneg, h1, h2, if_true, if_false, ne_eq, not_false_eq_true, true_and,
            or_false, and_true]
          split_ifs <;> omega
        · simp [h0, hneg, h1, h2]

theorem atoi_errSyntax_iff (s : String) :
    (strconv.Atoi s).2 = some NumError.errSyntax ↔
      (unsignedPart s = [] ∨
        (leadingDigits s ≠ unsignedPart s ∧ decimalValue (leadingDigits s) ≤ maxUint64)) := by
  unfold strconv.Atoi strconv.ParseInt leadingDigits
  cases hs : s.data with
  | nil =>
    have hu : unsignedPart s = [] := by simp [unsignedPart, hs]
    simp [hu]
  | cons c cs =>
    have hu : unsignedPart s = if (c == '+' || c == '-') = true then cs else c :: cs := by
      simp [unsignedPart, hs]
    simp only [← hu, parseUint_eq]
    by_cases h0 : unsignedPart s = []
    · simp only [if_pos h0]
      simp [h0]
    · rw [if_neg h0]
      by_cases h1 : maxUint64 < decimalValue ((unsignedPart s).takeWhile Char.isDigit)
      · rw [if_pos h1]
        have h1' : ¬ decimalValue ((unsignedPart s).takeWhile Char.isDigit) ≤ maxUint64 := by
          omega
        cases hneg : (c == '-') <;> simp [maxUint64, h0, h1'] <;> unfold maxUint64 at h1' <;>
          omega
      · rw [if_neg h1]
        by_cases h2 : (unsignedPart s).takeWhile Char.isDigit = unsignedPart s
        · rw [if_pos h2]
          have hno : ¬ (unsignedPart s = [] ∨
              ((unsignedPart s).takeWhile Char.isDigit ≠ unsignedPart s ∧
                decimalValue ((unsignedPart s).takeWhile Char.isDigit) ≤ maxUint64)) := by
            rintro (h | ⟨h, -⟩)
            · exact h0 h
            · exact h h2
          simp only [hno, iff_false]
          cases hneg : (c == '-')
          · simp only [Bool.not_false, Bool.true_and, decide_eq_true_eq, Bool.false_and,
              Bool.false_eq_true, if_false, ge_iff_le]
            split <;> simp
          · simp only [Bool.not_true, Bool.false_and, Bool.false_eq_true, if_false,
              Bool.true_and, decide_eq_true_eq, if_true, gt_iff_lt]
            split <;> simp
        · rw [if_neg h2]
          have hyes : (unsignedPart s = [] ∨
              ((unsignedPart s).takeWhile Char.isDigit ≠ unsignedPart s ∧
                decimalValue ((unsignedPart s).takeWhile Char.isDigit) ≤ maxUint64)) :=
            Or.inr ⟨h2, by omega⟩
          simp only [hyes, iff_true]

theorem atoi_errRange_iff (s : String) :
    (strconv.Atoi s).2 = some NumError.errRange ↔
      (unsignedPart s ≠ [] ∧
        (maxUint64 < decimalValue (leadingDigits s) ∨
          (leadingDigits s = unsignedPart s ∧
            (if s.data.head? = some '-' then 9223372036854775808 < decimalValue (leadingDigits s)
             else 9223372036854775808 ≤ decimalValue (leadingDigits s))))) := by
  unfold strconv.Atoi strconv.ParseInt leadingDigits
  cases hs : s.data with
  | nil =>
    have hu : unsignedPart s = [] := by simp [unsignedPart, hs]
    simp [hu]
  | cons c cs =>
    have hu : unsignedPart s = if (c == '+' || c == '-') = true then cs else c :: cs := by
      simp [unsignedPart, hs]
    have hh : (List.head? (c :: cs) = some '-') ↔ (c == '-') = true := by simp
    simp only [← hu, parseUint_eq, hh]
    by_cases h0 : unsignedPart s = []
    · simp only [if_pos h0]
      simp [h0]
    · rw [if_neg h0]
      by_cases h1 : maxUint64 < decimalValue ((unsignedPart s).takeWhile Char.isDigit)
      · rw [if_pos h1]
        refine ⟨fun _ => ⟨h0, Or.inl h1⟩, fun _ => ?_⟩
        cases hneg : (c == '-') <;> simp [maxUint64]
      · rw [if_neg h1]
        by_cases h2 : (unsignedPart s).takeWhile Char.isDigit = unsignedPart s
        · rw [if_pos h2]
          cases hneg : (c == '-')
          · simp only [Bool.not_false, Bool.true_and, decide_eq_true_eq, Bool.false_and,
              Bool.false_eq_true, if_false, ge_iff_le]
            split <;> simp_all
          · simp only [Bool.not_true, Bool.false_and, Bool.false_eq_true, if_false,
              Bool.true_and, decide_eq_true_eq, if_true, gt_iff_lt]
            split <;> simp_all
        · rw [if_neg h2]
          simp [h1, h2]

/-- C8, amended. For every value of the `page` parameter `List` answers 200
unless the store refuses the data query, so the parameter is never a reason
for a rejection, and the block it reports has limit 12 and the effective page.
That page is 1 when the parameter is absent or empty, when `Atoi` reports a
syntax error for it, or when the value `Atoi` returns is below 1; it is the
value `Atoi` returns when that is at least 1. A syntax error is reported
exactly when, one leading sign set aside, nothing is left, or a character that
is not a decimal digit follows leading digits whose value stays within
`uint64`. A range error of `Atoi` comes with the nearest bound of `int`, which
is used all the same: the page is `maxInt`, or 1 after a minus sign. A range
error is reported exactly for a numeral beyond the `int` range and for leading
digits beyond `uint64`, whatever follows them. In terms of the text alone the
effective page is `pageOfText` of the parameter. -/
theorem page_coercion (h : Pool) (r : Request Unit) :
    ((CampgroundHandler.List h r).resp.status = StatusOK ∨
      ((CampgroundHandler.List h r).resp
          = respondError StatusInternalServerError "Database error" ∧
        ∃ st ∈ (CampgroundHandler.List h r).log, h.fails st = true)) ∧
    ((CampgroundHandler.List h r).resp.status = StatusOK →
      ∃ data pg, (CampgroundHandler.List h r).resp.body = Body.paginated data pg ∧
        pg.Limit = 12 ∧ pg.Page = List.page r) ∧
    (r.query.lookup "page" = none → List.page r = 1) ∧
    (getOrEmpty r.query "page" = "" → List.page r = 1) ∧
    ((strconv.Atoi (getOrEmpty r.query "page")).2 = some NumError.errSyntax →
      List.page r = 1) ∧
    ((strconv.Atoi (getOrEmpty r.query "page")).1 < 1 → List.page r = 1) ∧
    (1 ≤ (strconv.Atoi (getOrEmpty r.query "page")).1 →
      List.page r = (strconv.Atoi (getOrEmpty r.query "page")).1) ∧
    ((strconv.Atoi (getOrEmpty r.query "page")).2 = some NumError.errRange →
      List.page r
        = if (getOrEmpty r.query "page").data.head? = some '-' then 1 else maxInt) ∧
    ((strconv.Atoi (getOrEmpty r.query "page")).2 = some NumError.errSyntax ↔
      (unsignedPart (getOrEmpty r.query "page") = [] ∨
        (leadingDigits (getOrEmpty r.query "page") ≠ unsignedPart (getOrEmpty r.query "page") ∧
          decimalValue (leadingDigits (getOrEmpty r.query "page")) ≤ maxUint64))) ∧
    ((strconv.Atoi (getOrEmpty r.query "page")).2 = some NumError.errRange ↔
      (unsignedPart (getOrEmpty r.query "page") ≠ [] ∧
        (maxUint64 < decimalValue (leadingDigits (getOrEmpty r.query "page")) ∨
          (leadingDigits (getOrEmpty r.query "page") = unsignedPart (getOrEmpty r.query "page") ∧
            (if (getOrEmpty r.query "page").data.head? = some '-' then
              9223372036854775808 < decimalValue (leadingDigits (getOrEmpty r.query "page"))
             else
              9223372036854775808
                ≤ decimalValue (leadingDigits (getOrEmpty r.query "page"))))))) ∧
    (strconv.Atoi (getOrEmpty r.query "page")).1
      = atoiValueOfText (getOrEmpty r.query "page") ∧
    List.page r = pageOfText (getOrEmpty r.query "page") := by
  have hsyn : (strconv.Atoi (getOrEmpty r.query "page")).2 = some NumError.errSyntax →
      List.page r = 1 := by
    intro he
    have h0 := parseInt_errSyntax _ he
    rw [page_eq]
    unfold strconv.Atoi
    rw [h0]
    rfl
  refine ⟨?_, ?_, ?_, ?_, hsyn, ?_, ?_, ?_, atoi_errSyntax_iff _, atoi_errRange_iff _,
    atoi_fst _, ?_⟩
  · unfold CampgroundHandler.List
    simp only
    split
    · rename_i hq
      right
      refine ⟨rfl, _, List.mem_cons_of_mem _ (List.mem_singleton_self _), ?_⟩
      unfold Pool.Query at hq
      by_contra hc
      simp [hc] at hq
    · left
      rfl
  · intro hs
    unfold CampgroundHandler.List at hs ⊢
    simp only at hs ⊢
    split
    · rename_i hq
      rw [hq] at hs
      simp [respondError, respondJSON, StatusOK, StatusInternalServerError] at hs
    · exact ⟨_, _, rfl, rfl, rfl⟩
  · intro hn
    apply hsyn
    simp [getOrEmpty, hn]
    rfl
  · intro he
    apply hsyn
    rw [he]
    rfl
  · intro hlt
    rw [page_eq, if_pos hlt]
  · intro hge
    rw [page_eq, if_neg (by omega)]
  · intro he
    have hv := parseInt_errRange _ he
    rw [page_eq]
    unfold strconv.Atoi
    rw [hv]
    split <;> simp [minInt, maxInt]
  · rw [page_eq]
    exact page_of_text _

/-- Counterexample to C8 as stated. The parameter `9223372036854775808` is not
parsed by `Atoi`, which reports a range error, yet the effective page is not 1
but `maxInt`, in the function and in the answer of `List`. The parameter
`99999999999999999999x` is not even a numeral, `Atoi` reports a range error
for it as well, and the effective page is `maxInt` again. -/
theorem page_coercion_range_error :
    (strconv.Atoi "9223372036854775808").2 = some NumError.errRange ∧
    List.page (pageRequest "9223372036854775808") = 9223372036854775807 ∧
    List.page (pageRequest "9223372036854775808") ≠ 1 ∧
    (CampgroundHandler.List samplePool (pageRequest "9223372036854775808")).resp
      = ⟨200, Body.paginated [] ⟨9223372036854775807, 12, 1, 1, false⟩⟩ ∧
    strconv.Atoi "99999999999999999999x" = (maxInt, some NumError.errRange) ∧
    List.page (pageRequest "99999999999999999999x") = 9223372036854775807 ∧
    (CampgroundHandler.List samplePool (pageRequest "99999999999999999999x")).resp
      = ⟨200, Body.paginated [] ⟨9223372036854775807, 12, 1, 1, false⟩⟩ := by
  refine ⟨by rfl, by rfl, by decide, by rfl, by rfl, by rfl, by rfl⟩

/-- The effective page of some parameters, read off the text: a numeral, a
signed numeral, a numeral followed by another character, and digits beyond
`uint64` followed by another character. -/
theorem page_of_text_examples :
    pageOfText "3" = 3 ∧ pageOfText "+3" = 3 ∧ pageOfText "-3" = 1 ∧ pageOfText "0" = 1 ∧
    pageOfText "" = 1 ∧ pageOfText "3x" = 1 ∧ pageOfText "abc" = 1 ∧
    pageOfText "9223372036854775808" = maxInt ∧
    pageOfText "99999999999999999999x" = maxInt := by
  refine ⟨by decide, by decide, by decide, by decide, by decide, by decide, by decide,
    by decide, by decide⟩

theorem offset_exact (page : Int) (h1 : 1 ≤ page) (h2 : page ≤ 768614336404564651) :
    List.offset page 12 = (page - 1) * 12 := by
  unfold List.offset intMul intSub wrapInt
  omega

/-- C9, the code at two inputs it can receive. The parameter
`page=1000000000000000000` is parsed without error, and the offset sent to the
store is not `(page - 1) * 12 = 11999999999999999988` but the wrapped value
`-6446744073709551628`, negative and not a multiple of 12. The parameter
`page=9223372036854775808` is clamped by `Atoi` to `maxInt`, and the offset sent
is `-24`. -/
theorem offset_overflow :
    strconv.Atoi "1000000000000000000" = (1000000000000000000, none) ∧
    (CampgroundHandler.List samplePool (pageRequest "1000000000000000000")).log
      = [⟨Sql.campgroundCount false, []⟩,
         ⟨Sql.campgroundList false, [SqlArg.int 12, SqlArg.int (-6446744073709551628)]⟩] ∧
    List.offset (List.page (pageRequest "1000000000000000000")) 12 = -6446744073709551628 ∧
    (List.page (pageRequest "1000000000000000000") - 1) * 12 = 11999999999999999988 ∧
    (-6446744073709551628 : Int) % 12 = 8 ∧
    strconv.Atoi "9223372036854775808" = (maxInt, some NumError.errRange) ∧
    (CampgroundHandler.List samplePool (pageRequest "9223372036854775808")).log
      = [⟨Sql.campgroundCount false, []⟩,
         ⟨Sql.campgroundList false, [SqlArg.int 12, SqlArg.int (-24)]⟩] := by
  refine ⟨by rfl, by rfl, by rfl, by rfl, by decide, by rfl, by rfl⟩

/-! ## Search consistency (C10) -/

theorem joinAuthor_c (s : Store) (c : CampgroundRow) : (s.joinAuthor c).c = c := by
  unfold Store.joinAuthor
  repeat' split
  all_goals rfl

theorem page_all (s : Store) (rows : List CampgroundRow) :
    ∃ out, s.page rows (rows.length : Int) 0 = some out ∧
      out.map (fun row => row.c) = orderByCreatedDesc rows := by
  have hp : s.page rows (rows.length : Int) 0 =
      some ((((orderByCreatedDesc rows).drop (0 : Int).toNat).take
        ((rows.length : Int)).toNat).map s.joinAuthor) := by
    unfold Store.page
    rw [if_neg (by omega)]
  refine ⟨_, hp, ?_⟩
  have hl : (orderByCreatedDesc rows).length = rows.length := by
    unfold orderByCreatedDesc
    exact List.length_insertionSort _ _
  simp only [Int.toNat_zero, List.drop_zero, Int.toNat_ofNat, List.map_map]
  rw [← hl, List.take_length]
  have : ((fun row => row.c) ∘ s.joinAuthor) = id := by
    funext c
    exact joinAuthor_c s c
  rw [this, List.map_id]

theorem count_eq (s : Store) (search : String) :
    s.count (List.countStmt search) = some ((s.selected search).length : Int) := by
  unfold List.countStmt Store.selected
  by_cases h : search = ""
  · simp [h, Store.count]
  · simp [h, Store.count]

theorem list_eq (s : Store) (search : String) (limit offset : Int) :
    s.list (List.dataStmt search (List.countStmt search).args limit offset)
      = s.page (s.selected search) limit offset := by
  unfold List.dataStmt List.countStmt Store.selected
  by_cases h : search = ""
  · simp [h, Store.list]
  · simp [h, Store.list]

/-- C10. Search consistency in `List`. For every search term the count query
and the data query that `List` sends carry the same condition with the same
pattern argument: both are filtered with `%term%` over name, description and
location when the term is not empty, both are unfiltered when it is. So, over
any store state, the count is the number of selected rows, and the data query
run with `limit = total` and `offset = 0` returns exactly the selected rows
(newest first), as many as the count. These two are the statements `List`
sends when its count step succeeds; and over a store that answers, `List`
reports as `total` this count of selected rows, not the size of the table, and
reads its items from the page of the selected rows. -/
theorem search_consistency (s : Store) (search : String) (limit offset : Int) :
    (search ≠ "" →
      List.countStmt search
        = ⟨Sql.campgroundCount true, [SqlArg.text ("%" ++ search ++ "%")]⟩ ∧
      List.dataStmt search (List.countStmt search).args limit offset
        = ⟨Sql.campgroundList true,
            [SqlArg.text ("%" ++ search ++ "%"), SqlArg.int limit, SqlArg.int offset]⟩ ∧
      s.selected search
        = s.campgrounds.filter (CampgroundRow.matchesSearch ("%" ++ search ++ "%"))) ∧
    (search = "" →
      List.countStmt search = ⟨Sql.campgroundCount false, []⟩ ∧
      List.dataStmt search (List.countStmt search).args limit offset
        = ⟨Sql.campgroundList false, [SqlArg.int limit, SqlArg.int offset]⟩ ∧
      s.selected search = s.campgrounds) ∧
    (∃ total rows, s.count (List.countStmt search) = some total ∧
      total = ((s.selected search).length : Int) ∧
      s.list (List.dataStmt search (List.countStmt search).args total 0) = some rows ∧
      rows.map (fun row => row.c) = orderByCreatedDesc (s.selected search) ∧
      (rows.length : Int) = total) ∧
    (∀ (h : Pool) (r : Request Unit), getOrEmpty r.query "search" = search →
      h.fails (List.countStmt search) = false →
      (CampgroundHandler.List h r).log
        = [List.countStmt search,
           List.dataStmt search (List.countStmt search).args 12
             (List.offset (List.page r) 12)]) ∧
    (∀ (scanFails : CampgroundRow → Bool) (r : Request Unit),
      getOrEmpty r.query "search" = search →
      (CampgroundHandler.List ⟨s, fun _ => false, scanFails⟩ r).resp
        = ⟨StatusOK, Body.paginated
            (Pool.scanRows ⟨s, fun _ => false, scanFails⟩
              ((s.page (s.selected search) 12 (List.offset (List.page r) 12)).getD []))
            (List.pagination (List.page r) 12 ((s.selected search).length : Int))⟩ ∧
      (List.pagination (List.page r) 12 ((s.selected search).length : Int)).Total
        = ((s.selected search).length : Int)) := by
  refine ⟨?_, ?_, ?_, ?_, ?_⟩
  · intro h
    simp [List.countStmt, List.dataStmt, Store.selected, h]
  · intro h
    simp [List.countStmt, List.dataStmt, Store.selected, h]
  · obtain ⟨out, hout, hmap⟩ := page_all s (s.selected search)
    refine ⟨_, out, count_eq s search, rfl, ?_, hmap, ?_⟩
    · rw [list_eq, hout]
    · have hl := congrArg List.length hmap
      rw [List.length_map] at hl
      unfold orderByCreatedDesc at hl
      rw [List.length_insertionSort] at hl
      rw [hl]
  · intro h r hr _
    unfold CampgroundHandler.List
    simp only [hr]
    split <;> rfl
  · intro scanFails r hr
    refine ⟨?_, rfl⟩
    unfold CampgroundHandler.List
    simp only [Pool.Query, Pool.scanCount, hr, count_eq, list_eq, if_false, Bool.false_eq_true,
      Option.getD_some]
    rfl

/-- An instance of C10 on the sample store: the term `lake` selects the one
campground, the term `sea` none; count and listing agree on both. -/
theorem search_consistency_example :
    sampleStore.count (List.countStmt "lake") = some 1 ∧
    (sampleStore.list (List.dataStmt "lake" (List.countStmt "lake").args 1 0)).map List.length
      = some 1 ∧
    sampleStore.count (List.countStmt "sea") = some 0 ∧
    (sampleStore.list (List.dataStmt "sea" (List.countStmt "sea").args 0 0)).map List.length
      = some 0 := by
  refine ⟨by rfl, by rfl, by rfl, by rfl⟩

/-! ## Search terms with pattern characters (C11) -/

/-- C11, the code at inputs it can receive. The term `_` occurs in no field of
`lakeRow`, yet the pattern `%_%` matches it and `List` returns it; the same
holds for the term `%`. The term `\` occurs in the name of `slashRow`, yet the
pattern `%\%` does not match it and `List` returns nothing. -/
theorem search_pattern_characters :
    CampgroundRow.matchesSearch ("%" ++ "_" ++ "%") lakeRow = true ∧
    ¬ lakeRow.containsTerm "_" ∧
    (CampgroundHandler.List samplePool (searchRequest "_")).resp.status = StatusOK ∧
    (∃ data, (CampgroundHandler.List samplePool (searchRequest "_")).resp.body
        = Body.paginated data ⟨1, 12, 1, 1, false⟩ ∧ data.map (fun c => c.ID) = [7]) ∧
    CampgroundRow.matchesSearch ("%" ++ "%" ++ "%") lakeRow = true ∧
    ¬ lakeRow.containsTerm "%" ∧
    CampgroundRow.matchesSearch ("%" ++ "\\" ++ "%") slashRow = false ∧
    slashRow.containsTerm "\\" ∧
    (CampgroundHandler.List ⟨twoStore, fun _ => false, fun _ => false⟩
        (searchRequest "\\")).resp
      = ⟨200, Body.paginated [] ⟨1, 12, 0, 0, false⟩⟩ := by
  refine ⟨by rfl, by decide, by rfl, ⟨_, by rfl, by rfl⟩, by rfl, by decide, by rfl, by decide,
    by rfl⟩

theorem likeMatch_cons (c : Char) (p t : List Char) :
    likeMatch (c :: p) t =
      if c = '%' then likeAny (likeMatch p) t
      else if c = '_' then
        match t with
        | [] => false
        | _ :: t' => likeMatch p t'
      else if c = '\\' then
        match p, t with
        | e :: p', d :: t' => e == d && likeMatch p' t'
        | _, _ => false
      else
        match t with
        | [] => false
        | d :: t' => c == d && likeMatch p t' := by
  cases p <;> cases t <;> rfl

theorem likeMatch_char (c : Char) (p : List Char) (d : Char) (t : List Char)
    (h1 : c ≠ '%') (h2 : c ≠ '_') (h3 : c ≠ '\\') :
    likeMatch (c :: p) (d :: t) = (c == d && likeMatch p t) := by
  rw [likeMatch_cons]
  simp only [h1, h2, h3, if_false]

theorem likeMatch_char_nil (c : Char) (p : List Char)
    (h1 : c ≠ '%') (h2 : c ≠ '_') (h3 : c ≠ '\\') :
    likeMatch (c :: p) [] = false := by
  rw [likeMatch_cons]
  simp only [h1, h2, h3, if_false]

theorem likeMatch_percent (p t : List Char) :
    likeMatch ('%' :: p) t = likeAny (likeMatch p) t := by
  rw [likeMatch_cons]
  simp only [if_true]

theorem likeMatch_nil (t : List Char) : likeMatch [] t = t.isEmpty := by
  cases t <;> rfl

theorem likeAny_iff (f : List Char → Bool) (t : List Char) :
    likeAny f t = true ↔ ∃ s, s <:+ t ∧ f s = true := by
  induction t with
  | nil =>
    simp only [likeAny, List.suffix_nil]
    constructor
    · intro h
      exact ⟨[], rfl, h⟩
    · rintro ⟨s, rfl, h⟩
      exact h
  | cons c t ih =>
    simp only [likeAny, Bool.or_eq_true, ih, List.suffix_cons_iff]
    constructor
    · rintro (h | ⟨s, hs, h⟩)
      · exact ⟨c :: t, Or.inl rfl, h⟩
      · exact ⟨s, Or.inr hs, h⟩
    · rintro ⟨s, hs | hs, h⟩
      · subst hs
        exact Or.inl h
      · exact Or.inr ⟨s, hs, h⟩

theorem likeMatch_plain (p t : List Char) (hp : ∀ c ∈ p, c ≠ '%' ∧ c ≠ '_' ∧ c ≠ '\\') :
    likeMatch (p ++ ['%']) t = true ↔ p <+: t := by
  induction p generalizing t with
  | nil =>
    simp only [List.nil_append, List.nil_prefix, iff_true]
    rw [likeMatch_percent, likeAny_iff]
    exact ⟨[], List.nil_suffix, by rw [likeMatch_nil]; rfl⟩
  | cons c p ih =>
    obtain ⟨h1, h2, h3⟩ := hp c (List.mem_cons_self _ _)
    have ih' := fun t => ih t (fun d hd => hp d (List.mem_cons_of_mem _ hd))
    cases t with
    | nil =>
      rw [List.cons_append, likeMatch_char_nil c _ h1 h2 h3]
      simp
    | cons d t =>
      rw [List.cons_append, likeMatch_char c _ d t h1 h2 h3]
      simp only [Bool.and_eq_true, beq_iff_eq, ih', List.cons_prefix_cons]

theorem likeMatch_substring (p t : List Char) (hp : ∀ c ∈ p, c ≠ '%' ∧ c ≠ '_' ∧ c ≠ '\\') :
    likeMatch ('%' :: (p ++ ['%'])) t = true ↔ p <:+: t := by
  rw [likeMatch_percent, likeAny_iff, List.infix_iff_prefix_suffix]
  constructor
  · rintro ⟨s, hs, h⟩
    exact ⟨s, (likeMatch_plain p s hp).mp h, hs⟩
  · rintro ⟨s, h, hs⟩
    exact ⟨s, hs, (likeMatch_plain p s hp).mpr h⟩

theorem ilike_plain (field term : String) (hp : plainTerm term) :
    ilike field ("%" ++ term ++ "%") = true ↔ containsIgnoreCase field term := by
  unfold ilike containsIgnoreCase
  have hd : ("%" ++ term ++ "%").data.map Char.toLower
      = '%' :: (term.data.map Char.toLower ++ ['%']) := by
    simp [String.data_append]
  rw [hd]
  exact likeMatch_substring _ _ hp

/-- For a search term without pattern characters the filter of `List` is the
substring filter: a row matches `%term%` on one of its three fields exactly
when the term occurs in that field, letter case aside. -/
theorem matchesSearch_plain (term : String) (c : CampgroundRow) (hp : plainTerm term) :
    c.matchesSearch ("%" ++ term ++ "%") = true ↔ c.containsTerm term := by
  unfold CampgroundRow.matchesSearch CampgroundRow.containsTerm
  cases hl : c.location with
  | none => simp [ilike_plain _ _ hp]
  | some l => simp [ilike_plain _ _ hp, or_assoc]

/-! ## Failures while listing (C12) -/

theorem scanRow_eq_none_iff (h : Pool) (row : ListRow) :
    h.scanRow row = none ↔ h.scanFails row.c = true := by
  unfold Pool.scanRow
  split <;> simp_all

theorem scanRows_eq_takeWhile (h : Pool) (rows : List ListRow) :
    h.scanRows rows
      = (rows.takeWhile (fun row => !h.scanFails row.c)).filterMap h.scanRow := by
  induction rows with
  | nil => rfl
  | cons row rows ih =>
    cases hs : h.scanRow row with
    | none =>
      have hf := (scanRow_eq_none_iff h row).mp hs
      simp [Pool.scanRows, hs, List.takeWhile, hf]
    | some c =>
      have hf : h.scanFails row.c = false := by
        cases hb : h.scanFails row.c with
        | false => rfl
        | true =>
          rw [(scanRow_eq_none_iff h row).mpr hb] at hs
          exact absurd hs (by simp)
      simp [Pool.scanRows, hs, List.takeWhile, hf, ih]

theorem scanRows_length (h : Pool) (rows : List ListRow) :
    (h.scanRows rows).length = (rows.takeWhile (fun row => !h.scanFails row.c)).length := by
  induction rows with
  | nil => rfl
  | cons row rows ih =>
    cases hs : h.scanRow row with
    | none =>
      have hf := (scanRow_eq_none_iff h row).mp hs
      simp [Pool.scanRows, hs, List.takeWhile, hf]
    | some c =>
      have hf : h.scanFails row.c = false := by
        cases hb : h.scanFails row.c with
        | false => rfl
        | true =>
          rw [(scanRow_eq_none_iff h row).mpr hb] at hs
          exact absurd hs (by simp)
      simp [Pool.scanRows, hs, List.takeWhile, hf, ih]

/-- C12, amended. For a run of `List` whose count step succeeded, each store
call returning a result or an error: when the data query fails the answer is
the store error 500 and no list; otherwise the answer is 200 with the `total`
returned by the store and the campgrounds of the rows read before the first
row whose reading fails, in the order of the store, so the list is complete
when every row could be read and a proper beginning of it otherwise. The store
is left as it was. -/
theorem listing_failure_modes (h : Pool) (r : Request Unit)
    (hcount : h.fails (List.countStmt (getOrEmpty r.query "search")) = false) :
    (h.fails (List.dataStmt (getOrEmpty r.query "search")
        (List.countStmt (getOrEmpty r.query "search")).args 12
        (List.offset (List.page r) 12)) = true →
      (CampgroundHandler.List h r).resp
        = respondError StatusInternalServerError "Database error") ∧
    (h.fails (List.dataStmt (getOrEmpty r.query "search")
        (List.countStmt (getOrEmpty r.query "search")).args 12
        (List.offset (List.page r) 12)) = false →
      ∃ rows data pg, h.Query (List.dataStmt (getOrEmpty r.query "search")
          (List.countStmt (getOrEmpty r.query "search")).args 12
          (List.offset (List.page r) 12)) = some rows ∧
        (CampgroundHandler.List h r).resp = ⟨StatusOK, Body.paginated data pg⟩ ∧
        h.store.count (List.countStmt (getOrEmpty r.query "search")) = some pg.Total ∧
        data = (rows.takeWhile (fun row => !h.scanFails row.c)).filterMap h.scanRow ∧
        data.length = (rows.takeWhile (fun row => !h.scanFails row.c)).length ∧
        ((∀ row ∈ rows, h.scanFails row.c = false) → data.length = rows.length) ∧
        ((∃ row ∈ rows, h.scanFails row.c = true) → data.length < rows.length)) ∧
    (CampgroundHandler.List h r).store = h.store := by
  refine ⟨?_, ?_, ?_⟩
  · intro hf
    unfold CampgroundHandler.List
    simp [Pool.Query, hf]
  · intro hf
    have hq : h.Query (List.dataStmt (getOrEmpty r.query "search")
        (List.countStmt (getOrEmpty r.query "search")).args 12
        (List.offset (List.page r) 12))
        = some ((h.store.list (List.dataStmt (getOrEmpty r.query "search")
            (List.countStmt (getOrEmpty r.query "search")).args 12
            (List.offset (List.page r) 12))).getD []) := by
      simp [Pool.Query, hf]
    refine ⟨_, h.scanRows _,
      List.pagination (List.page r) 12
        (h.scanCount (List.countStmt (getOrEmpty r.query "search"))),
      hq, ?_, ?_, scanRows_eq_takeWhile h _, scanRows_length h _, ?_, ?_⟩
    · unfold CampgroundHandler.List
      simp only [hq]
      rfl
    · rw [count_eq]
      simp [List.pagination, Pool.scanCount, hcount, count_eq]
    · intro hall
      rw [scanRows_length, List.takeWhile_eq_self_iff.mpr]
      intro row hrow
      simp [hall row hrow]
    · rintro ⟨row, hrow, hfail⟩
      rw [scanRows_length]
      apply lt_of_le_of_ne (List.takeWhile_sublist _).length_le
      intro hlen
      have heq : List.takeWhile (fun row => !h.scanFails row.c)
          ((h.store.list (List.dataStmt (getOrEmpty r.query "search")
            (List.countStmt (getOrEmpty r.query "search")).args 12
            (List.offset (List.page r) 12))).getD []) = _ :=
        (List.takeWhile_sublist _).eq_of_length hlen
      have hall := List.takeWhile_eq_self_iff.mp heq row hrow
      simp [hfail] at hall
  · unfold CampgroundHandler.List
    simp only
    split <;> rfl

/-- Witness of C12, amended: over a store of two campgrounds whose count
succeeds and whose newest row cannot be read, the answer is 200 with the total
2 of the store and an empty list. -/
theorem listing_failure_modes_witness :
    ∃ rows data pg, scanFailPool.Query (List.dataStmt "" [] 12 0) = some rows ∧
      rows.length = 2 ∧
      (CampgroundHandler.List scanFailPool (searchRequest "")).resp
        = ⟨StatusOK, Body.paginated data pg⟩ ∧
      pg.Total = 2 ∧ data = [] := by
  obtain ⟨rows, data, pg, hq, hresp, htotal, hdata, -⟩ :=
    (listing_failure_modes scanFailPool (searchRequest "") (by rfl)).2.1 (by rfl)
  have hrows : rows = (scanFailPool.store.list (List.dataStmt "" [] 12 0)).getD [] := by
    have : scanFailPool.Query (List.dataStmt "" [] 12 0)
        = some ((scanFailPool.store.list (List.dataStmt "" [] 12 0)).getD []) := by rfl
    exact Option.some.inj (hq.symm.trans this)
  refine ⟨rows, data, pg, hq, ?_, hresp, ?_, ?_⟩
  · rw [hrows]
    rfl
  · have h2 : scanFailPool.store.count (List.countStmt "") = some 2 := by rfl
    exact (Option.some.inj (htotal.symm.trans h2))
  · rw [hdata, hrows]
    rfl

/-- Counterexample to C12 as stated. When the count step fails the answer is
not a store error: it is 200, the data query was sent all the same, and the
`total` 0 it carries was not returned by the store, which counts 1. When the
first of two rows cannot be read the answer is 200 with an empty list, although
the store returned two rows and counts 2. -/
theorem listing_failure_not_atomic :
    countFailPool.fails (List.countStmt "") = true ∧
    (CampgroundHandler.List countFailPool (searchRequest "")).resp.status = StatusOK ∧
    (CampgroundHandler.List countFailPool (searchRequest "")).log
      = [⟨Sql.campgroundCount false, []⟩,
         ⟨Sql.campgroundList false, [SqlArg.int 12, SqlArg.int 0]⟩] ∧
    (∃ data, (CampgroundHandler.List countFailPool (searchRequest "")).resp.body
      = Body.paginated data ⟨1, 12, 0, 0, false⟩) ∧
    sampleStore.count (List.countStmt "") = some 1 ∧
    (scanFailPool.Query (List.dataStmt "" [] 12 0)).map List.length = some 2 ∧
    (CampgroundHandler.List scanFailPool (searchRequest "")).resp
      = ⟨200, Body.paginated [] ⟨1, 12, 2, 1, false⟩⟩ := by
  refine ⟨by rfl, by rfl, by rfl, ⟨_, by rfl⟩, by rfl, by rfl, by rfl⟩

/-! ## Login (C13) -/

/-- C13. `Login` does not tell whether a username exists. For well-formed
login requests (the body decodes and validates), the answer when the username
is not found in the store and the answer when the username exists but the
password does not verify are the same: status 401 with the single message
`Invalid credentials`; and neither sets a cookie. -/
theorem login_hides_username (h₁ h₂ : Pool) (jwt : Jwt) (secret : String) (now₁ now₂ : Nat)
    (compare : String → String → Bool) (r₁ r₂ : Request LoginRequest)
    (req₁ req₂ : LoginRequest) (row : UserRow)
    (hb₁ : r₁.body = some req₁) (hv₁ : validateLogin req₁ = none)
    (hb₂ : r₂.body = some req₂) (hv₂ : validateLogin req₂ = none)
    (hmiss : h₁.store.userByUsername ⟨Sql.userByUsername, [SqlArg.text req₁.Username]⟩ = none)
    (hfound : h₂.scanUser ⟨Sql.userByUsername, [SqlArg.text req₂.Username]⟩ = some row)
    (hwrong : compare row.password req₂.Password = false) :
    (AuthHandler.Login h₁ jwt secret now₁ compare r₁).resp
      = respondError StatusUnauthorized "Invalid credentials" ∧
    (AuthHandler.Login h₂ jwt secret now₂ compare r₂).resp
      = respondError StatusUnauthorized "Invalid credentials" ∧
    (AuthHandler.Login h₁ jwt secret now₁ compare r₁).resp
      = (AuthHandler.Login h₂ jwt secret now₂ compare r₂).resp ∧
    (AuthHandler.Login h₁ jwt secret now₁ compare r₁).resp.status = 401 ∧
    (AuthHandler.Login h₁ jwt secret now₁ compare r₁).cookies = [] ∧
    (AuthHandler.Login h₂ jwt secret now₂ compare r₂).cookies = [] := by
  have hmiss' : h₁.scanUser ⟨Sql.userByUsername, [SqlArg.text req₁.Username]⟩ = none := by
    unfold Pool.scanUser
    split
    · rfl
    · exact hmiss
  have e₁ : AuthHandler.Login h₁ jwt secret now₁ compare r₁
      = ⟨respondError StatusUnauthorized "Invalid credentials", [], h₁.store,
          [⟨Sql.userByUsername, [SqlArg.text req₁.Username]⟩]⟩ := by
    unfold AuthHandler.Login
    simp only [hb₁, hv₁, hmiss']
  have e₂ : AuthHandler.Login h₂ jwt secret now₂ compare r₂
      = ⟨respondError StatusUnauthorized "Invalid credentials", [], h₂.store,
          [⟨Sql.userByUsername, [SqlArg.text req₂.Username]⟩]⟩ := by
    unfold AuthHandler.Login
    simp only [hb₂, hv₂, hfound, hwrong]
    rfl
  rw [e₁, e₂]
  exact ⟨rfl, rfl, rfl, rfl, rfl, rfl⟩

/-- Witness of C13: on the sample store, with a password check that compares
the stored text, the unknown user `bob` and the user `alice` with a wrong
password get the same 401 and no cookie. -/
theorem login_hides_username_witness :
    (AuthHandler.Login samplePool toyJwt "s3cret" 0 (fun hash pw => hash == pw)
        (loginRequest "bob" "hash")).resp
      = (AuthHandler.Login samplePool toyJwt "s3cret" 0 (fun hash pw => hash == pw)
        (loginRequest "alice" "wrong")).resp ∧
    (AuthHandler.Login samplePool toyJwt "s3cret" 0 (fun hash pw => hash == pw)
        (loginRequest "bob" "hash")).resp
      = ⟨401, Body.error "Invalid credentials"⟩ ∧
    (AuthHandler.Login samplePool toyJwt "s3cret" 0 (fun hash pw => hash == pw)
        (loginRequest "alice" "wrong")).cookies = [] :=
  have key := login_hides_username samplePool samplePool toyJwt "s3cret" 0 0
    (fun hash pw => hash == pw) (loginRequest "bob" "hash") (loginRequest "alice" "wrong")
    ⟨"bob", "hash"⟩ ⟨"alice", "wrong"⟩ ⟨"alice", "alice", "alice@x.com", "hash", 1, 1⟩
    rfl (by decide) rfl (by decide) (by decide) (by decide) (by decide)
  ⟨key.2.2.1, key.1, key.2.2.2.2.2⟩

/-- The right password does open a session: `alice` gets 200, her user record
without the password, and one `token` cookie. -/
theorem login_success_example :
    (AuthHandler.Login samplePool toyJwt "s3cret" 0 (fun hash pw => hash == pw)
        (loginRequest "alice" "hash")).resp
      = ⟨200, Body.user ⟨"alice", "alice", "alice@x.com", 1, 1⟩⟩ ∧
    ((AuthHandler.Login samplePool toyJwt "s3cret" 0 (fun hash pw => hash == pw)
        (loginRequest "alice" "hash")).cookies.map (fun c => c.Name)) = ["token"] := by
  refine ⟨by rfl, by rfl⟩

/-! ## Ownership lifecycle (C14) -/

theorem create_success (h : Pool) (now : Nat) (isURL : String → Bool) (seq : Int)
    (r : Request CreateCampgroundRequest)
    (hc : (CampgroundHandler.Create h now isURL seq r).resp.status = StatusCreated) :
    ∃ req, r.body = some req ∧ validateCreateCampground isURL req = none ∧
      h.store.campgrounds.any (fun c => c.id == seq) = false ∧
      (CampgroundHandler.Create h now isURL seq r).store
        = { h.store with campgrounds := h.store.campgrounds ++
            [⟨seq, req.Name, req.Price, req.Image, req.Description, req.Location,
              some (GetUserID r), now, now⟩] } ∧
      (CampgroundHandler.Create h now isURL seq r).resp.body
        = Body.campground ⟨seq, req.Name, req.Price, req.Image, req.Description, req.Location,
            some (GetUserID r), none, now, now⟩ [] := by
  unfold CampgroundHandler.Create at hc ⊢
  cases hb : r.body with
  | none => simp [hb, respondError, respondJSON, StatusCreated, StatusBadRequest] at hc
  | some req =>
    simp only [hb] at hc ⊢
    cases hv : validateCreateCampground isURL req with
    | some msg => simp [hv, respondError, respondJSON, StatusCreated, StatusBadRequest] at hc
    | none =>
      simp only [hv] at hc ⊢
      unfold Pool.insertReturning Store.insertCampground at hc ⊢
      by_cases hf : h.fails ⟨Sql.campgroundInsert,
          [SqlArg.text req.Name, SqlArg.text req.Price, SqlArg.text req.Image,
           SqlArg.text req.Description, SqlArg.ofPtr req.Location,
           SqlArg.text (GetUserID r), SqlArg.time now, SqlArg.time now]⟩ = true
      · simp [hf, respondError, respondJSON, StatusCreated, StatusInternalServerError] at hc
      · by_cases ha : h.store.campgrounds.any (fun c => c.id == seq) = true
        · simp [hf, ha, respondError, respondJSON, StatusCreated,
            StatusInternalServerError] at hc
        · have ha' : h.store.campgrounds.any (fun c => c.id == seq) = false := by
            simpa using ha
          refine ⟨req, rfl, hv, ha', ?_, ?_⟩
          · simp only [hf, ha']
            cases req.Location <;> simp [SqlArg.ofPtr, SqlArg.toText]
          · simp only [hf, ha']
            cases req.Location <;> simp [SqlArg.ofPtr, SqlArg.toText, respondJSON]

theorem find_appended (rows : List CampgroundRow) (row : CampgroundRow)
    (hfresh : rows.any (fun c => c.id == row.id) = false) :
    (rows ++ [row]).find? (fun c => c.id == row.id) = some row := by
  have hn : rows.find? (fun c => c.id == row.id) = none := by
    rw [List.find?_eq_none]
    intro c hc hcid
    have : rows.any (fun c => c.id == row.id) = true :=
      List.any_eq_true.mpr ⟨c, hc, hcid⟩
    rw [hfresh] at this
    exact absurd this (by simp)
  rw [List.find?_append, hn]
  simp

theorem filter_appended (rows : List CampgroundRow) (row : CampgroundRow)
    (hfresh : rows.any (fun c => c.id == row.id) = false) :
    (rows ++ [row]).filter (fun c => !(c.id == row.id)) = rows := by
  rw [List.filter_append]
  have h1 : rows.filter (fun c => !(c.id == row.id)) = rows := by
    rw [List.filter_eq_self]
    intro c hc
    by_contra hcid
    have : rows.any (fun c => c.id == row.id) = true :=
      List.any_eq_true.mpr ⟨c, hc, by simpa using hcid⟩
    rw [hfresh] at this
    exact absurd this (by simp)
  rw [h1]
  simp

theorem delete_by_owner (s : Store) (r : Request Unit) (id : Int) (user : String)
    (hid : strconv.Atoi (getOrEmpty r.urlParams "id") = (id, none))
    (hu : GetUserID r = user)
    (hsel : s.selectAuthor ⟨Sql.campgroundAuthor, [SqlArg.int id]⟩ = some user) :
    (CampgroundHandler.Delete (Pool.ofStore s) r).resp
      = respondJSON StatusOK (Body.message "Campground deleted") ∧
    (CampgroundHandler.Delete (Pool.ofStore s) r).store
      = { s with campgrounds := s.campgrounds.filter (fun c => !(c.id == id)) } := by
  unfold CampgroundHandler.Delete
  simp [hid, hu, Pool.scanAuthor, Pool.ofStore, hsel, Pool.Exec, Store.exec]

theorem getByID_missing (h : Pool) (r : Request Unit) (id : Int)
    (hid : strconv.Atoi (getOrEmpty r.urlParams "id") = (id, none))
    (hno : ∀ c ∈ h.store.campgrounds, c.id ≠ id) :
    (CampgroundHandler.GetByID h r).resp
      = respondError StatusNotFound "Campground not found" := by
  have hf : h.store.campgrounds.find? (fun c => c.id == id) = none := by
    rw [List.find?_eq_none]
    intro c hc
    simpa using hno c hc
  have hs : h.scanCampground ⟨Sql.campgroundById, [SqlArg.int id]⟩ = none := by
    unfold Pool.scanCampground
    split
    · rfl
    · simp [Store.campgroundById, hf]
  unfold CampgroundHandler.GetByID
  simp only [hid, hs]

/-- C14. Ownership lifecycle. Let `A` and `B` be distinct identities and let
`A` create a campground successfully (answer 201), the sequence handing out the
id `seq`. Then the author stored for `seq` is `A`, and the 201 answer reports
the id `seq` and `authorId = A`. A `Delete` of `seq` by `B` is answered 403 and
leaves the store as it was, whatever the store fails on. A `Delete` of `seq` by
`A`, over a store that answers, is answered 200 and removes the row: the
campgrounds are those from before the creation and none carries the id `seq`.
A `GetByID` of `seq` after that is answered 404. -/
theorem ownership_lifecycle (h : Pool) (now : Nat) (isURL : String → Bool) (seq : Int)
    (A B : String) (hAB : A ≠ B)
    (rc : Request CreateCampgroundRequest) (rb ra rg : Request Unit)
    (fails : Stmt → Bool) (scanFails : CampgroundRow → Bool)
    (hA : GetUserID rc = A)
    (hcreated : (CampgroundHandler.Create h now isURL seq rc).resp.status = StatusCreated)
    (hB : GetUserID rb = B)
    (hidb : strconv.Atoi (getOrEmpty rb.urlParams "id") = (seq, none))
    (hA' : GetUserID ra = A)
    (hida : strconv.Atoi (getOrEmpty ra.urlParams "id") = (seq, none))
    (hidg : strconv.Atoi (getOrEmpty rg.urlParams "id") = (seq, none)) :
    (CampgroundHandler.Create h now isURL seq rc).store.selectAuthor
        ⟨Sql.campgroundAuthor, [SqlArg.int seq]⟩ = some A ∧
    (∃ c, (CampgroundHandler.Create h now isURL seq rc).resp.body = Body.campground c [] ∧
      c.ID = seq ∧ c.AuthorID = some A) ∧
    (CampgroundHandler.Delete
        ⟨(CampgroundHandler.Create h now isURL seq rc).store, fails, scanFails⟩ rb).resp.status
      = StatusForbidden ∧
    (CampgroundHandler.Delete
        ⟨(CampgroundHandler.Create h now isURL seq rc).store, fails, scanFails⟩ rb).store
      = (CampgroundHandler.Create h now isURL seq rc).store ∧
    (CampgroundHandler.Delete
        (Pool.ofStore (CampgroundHandler.Create h now isURL seq rc).store) ra).resp.status
      = StatusOK ∧
    (CampgroundHandler.Delete
        (Pool.ofStore (CampgroundHandler.Create h now isURL seq rc).store) ra).store.campgrounds
      = h.store.campgrounds ∧
    (∀ c ∈ (CampgroundHandler.Delete
        (Pool.ofStore (CampgroundHandler.Create h now isURL seq rc).store) ra).store.campgrounds,
      c.id ≠ seq) ∧
    (CampgroundHandler.GetByID
        ⟨(CampgroundHandler.Delete
          (Pool.ofStore (CampgroundHandler.Create h now isURL seq rc).store) ra).store,
          fails, scanFails⟩ rg).resp.status
      = StatusNotFound := by
  obtain ⟨req, -, -, hfresh, hstore, hbody⟩ := create_success h now isURL seq rc hcreated
  have hfind := find_appended h.store.campgrounds
    ⟨seq, req.Name, req.Price, req.Image, req.Description, req.Location,
      some (GetUserID rc), now, now⟩ hfresh
  have hsel : (CampgroundHandler.Create h now isURL seq rc).store.selectAuthor
      ⟨Sql.campgroundAuthor, [SqlArg.int seq]⟩ = some A := by
    rw [hstore]
    simp only [Store.selectAuthor]
    rw [hfind]
    simp [hA]
  have hne : (CampgroundHandler.Create h now isURL seq rc).store.selectAuthor
      ⟨Sql.campgroundAuthor, [SqlArg.int seq]⟩ ≠ some (GetUserID rb) := by
    rw [hsel, hB]
    intro hc
    exact hAB (Option.some.inj hc)
  have hdel := delete_by_owner (CampgroundHandler.Create h now isURL seq rc).store ra seq A
    hida hA' hsel
  have hrows : (CampgroundHandler.Delete
      (Pool.ofStore (CampgroundHandler.Create h now isURL seq rc).store) ra).store.campgrounds
      = h.store.campgrounds := by
    rw [hdel.2, hstore]
    exact filter_appended h.store.campgrounds
      ⟨seq, req.Name, req.Price, req.Image, req.Description, req.Location,
        some (GetUserID rc), now, now⟩ hfresh
  have hnone : ∀ c ∈ (CampgroundHandler.Delete
      (Pool.ofStore (CampgroundHandler.Create h now isURL seq rc).store) ra).store.campgrounds,
      c.id ≠ seq := by
    rw [hrows]
    intro c hc hcid
    have : h.store.campgrounds.any (fun c => c.id == seq) = true :=
      List.any_eq_true.mpr ⟨c, hc, by simpa using hcid⟩
    rw [hfresh] at this
    exact absurd this (by simp)
  refine ⟨hsel, ⟨_, hbody, rfl, by rw [hA]⟩, ?_, ?_, ?_, hrows, hnone, ?_⟩
  · exact (campground_delete_gated
      ⟨(CampgroundHandler.Create h now isURL seq rc).store, fails, scanFails⟩ rb seq hidb).2.1 hne
  · apply (campground_delete_guarded
      ⟨(CampgroundHandler.Create h now isURL seq rc).store, fails, scanFails⟩ rb).1
    rintro ⟨id, hid, hs⟩
    rw [hidb] at hid
    cases hid
    exact hne hs
  · rw [hdel.1]
    rfl
  · rw [getByID_missing _ rg seq hidg hnone]
    rfl

/-- Witness of C14 on the sample store: `alice` creates the campground 8, `bob`
may not delete it, `alice` deletes it, and it is gone. -/
theorem ownership_lifecycle_witness :
    (CampgroundHandler.Create samplePool 9 (fun _ => true) 8 hillRequest).resp.status
      = StatusCreated ∧
    (CampgroundHandler.Delete
        ⟨(CampgroundHandler.Create samplePool 9 (fun _ => true) 8 hillRequest).store,
          fun _ => false, fun _ => false⟩ (sampleRequest "8" "bob" none)).resp.status
      = StatusForbidden ∧
    (CampgroundHandler.Delete
        (Pool.ofStore (CampgroundHandler.Create samplePool 9 (fun _ => true) 8 hillRequest).store)
        (sampleRequest "8" "alice" none)).resp.status = StatusOK ∧
    (CampgroundHandler.GetByID
        ⟨(CampgroundHandler.Delete
          (Pool.ofStore
            (CampgroundHandler.Create samplePool 9 (fun _ => true) 8 hillRequest).store)
          (sampleRequest "8" "alice" none)).store, fun _ => false, fun _ => false⟩
        (sampleRequest "8" "" none)).resp.status = StatusNotFound :=
  have key := ownership_lifecycle samplePool 9 (fun _ => true) 8 "alice" "bob" (by decide)
    hillRequest (sampleRequest "8" "bob" none) (sampleRequest "8" "alice" none)
    (sampleRequest "8" "" none) (fun _ => false) (fun _ => false)
    (by rfl) (by rfl) (by rfl) (by rfl) (by rfl) (by rfl) (by rfl)
  ⟨by rfl, key.2.2.1, key.2.2.2.2.1, key.2.2.2.2.2.2.2⟩

end YelpCamp
